import Mathlib

/-!
# kalon: finite-checked scalars and the unit-tracking 3D vector

A shallow embedding of `include/kalon/Real.hpp` and `include/kalon/Vector3.hpp`.

* `kalon.Double` is an executable model of the C++ `double` (IEEE 754 binary64,
  round to nearest, ties to even) with the operations the two headers use:
  `+ - * /`, `std::sqrt`, `std::isfinite` and `==`.
* `kalon.Real` embeds `class Real`; a member that may throw returns
  `Except Exn _`.
* `kalon.Vector3` embeds `struct Vector3`.  A member that can change the receiver
  (the compound assignments, `Normalize`, and the `const` members that write the
  `mutable` magnitude cache) returns its result paired with the receiver as the
  call leaves it, so that the state left behind by a call that threw is visible.

The text carried by an exception (`what()`) is not modelled: C++ leaves the
evaluation order of the operands of `+` and of constructor arguments unspecified,
so which of two failing sub-expressions throws first is not determined by the
source; whether a call throws is.
-/

set_option maxRecDepth 100000
set_option exponentiation.threshold 4096

namespace kalon

/-! ## IEEE 754 binary64 -/

/-- An IEEE 754 binary64 datum, the C++ `double`: a NaN, an infinity, or a finite
number given by its sign bit, its 11-bit biased exponent field (`0 .. 2046`) and its
52-bit fraction field.  All NaN payloads are identified. -/
inductive Double where
  | nan : Double
  | inf (neg : Bool) : Double
  | fin (neg : Bool) (ex : Fin 2047) (fr : Fin 4503599627370496) : Double
  deriving DecidableEq

namespace Double

/-- Integer significand of a finite datum: the hidden bit is set unless the exponent
field is zero. -/
def mant (ex : Fin 2047) (fr : Fin 4503599627370496) : Nat :=
  if ex.val = 0 then fr.val else 4503599627370496 + fr.val

/-- Binary exponent of the last place of a finite datum, so that its magnitude is
`mant ex fr * 2 ^ expo ex`. -/
def expo (ex : Fin 2047) : Int :=
  if ex.val = 0 then -1074 else (ex.val : Int) - 1075

/-- Encode the magnitude `m * 2 ^ e`, where `m < 2 ^ 53` and `e = -1074` when
`m < 2 ^ 52`; an exponent above the largest finite one gives an infinity. -/
def pack (neg : Bool) (m : Nat) (e : Int) : Double :=
  if m < 4503599627370496 then
    fin neg ⟨0, by decide⟩ ⟨m % 4503599627370496, Nat.mod_lt _ (by decide)⟩
  else
    if h : (e + 1075).toNat < 2047 then
      fin neg ⟨(e + 1075).toNat, h⟩ ⟨m % 4503599627370496, Nat.mod_lt _ (by decide)⟩
    else inf neg

/-- Number of binary digits of `n`, with `fuel` bounding the number of halvings. -/
def bitLenAux : Nat → Nat → Nat
  | 0, _ => 0
  | fuel + 1, n => if n = 0 then 0 else bitLenAux fuel (n / 2) + 1

/-- Number of binary digits of `n` (`0` for `n = 0`). -/
def bitLen (n : Nat) : Nat := bitLenAux n n

/-- Round the exact magnitude `M * 2 ^ E` to the nearest binary64 value, ties to even
(the default IEEE rounding direction), and give it the sign `neg`.  The last place of
the result has exponent `e`; the bits of `M` below it decide the rounding. -/
def roundNE (neg : Bool) (M : Nat) (E : Int) : Double :=
  if M = 0 then fin neg ⟨0, by decide⟩ ⟨0, by decide⟩
  else
    let n : Int := (bitLen M : Int)
    let e : Int := max (E + n - 53) (-1074)
    let m : Nat :=
      if e ≤ E then M * 2 ^ (E - e).toNat
      else
        let sh := (e - E).toNat
        let q := M / 2 ^ sh
        let r := M % 2 ^ sh
        let half := 2 ^ (sh - 1)
        if half < r ∨ (r = half ∧ q % 2 = 1) then q + 1 else q
    if m = 9007199254740992 then pack neg 4503599627370496 (e + 1) else pack neg m e

/-- The library predicate `std::isfinite`. -/
def isFinite : Double → Bool
  | fin _ _ _ => true
  | _ => false

/-- Unary minus: the sign bit is flipped. -/
def neg : Double → Double
  | nan => nan
  | inf s => inf (!s)
  | fin s ex fr => fin (!s) ex fr

/-- The integer `m` with the sign `s`. -/
def signed (s : Bool) (m : Nat) : Int := if s then -(m : Int) else (m : Int)

/-- The operation `+` of two doubles. -/
def add : Double → Double → Double
  | nan, _ => nan
  | _, nan => nan
  | inf s, inf t => if s = t then inf s else nan
  | inf s, fin _ _ _ => inf s
  | fin _ _ _, inf t => inf t
  | fin s ea fa, fin t eb fb =>
    let e : Int := min (expo ea) (expo eb)
    let A : Int := signed s (mant ea fa * 2 ^ (expo ea - e).toNat)
    let B : Int := signed t (mant eb fb * 2 ^ (expo eb - e).toNat)
    let S : Int := A + B
    if S = 0 then fin (s && t) ⟨0, by decide⟩ ⟨0, by decide⟩
    else roundNE (decide (S < 0)) S.natAbs e

/-- The operation `-` of two doubles. -/
def sub (a b : Double) : Double := add a (neg b)

/-- The operation `*` of two doubles. -/
def mul : Double → Double → Double
  | nan, _ => nan
  | _, nan => nan
  | inf s, inf t => inf (xor s t)
  | inf s, fin t eb fb => if mant eb fb = 0 then nan else inf (xor s t)
  | fin s ea fa, inf t => if mant ea fa = 0 then nan else inf (xor s t)
  | fin s ea fa, fin t eb fb =>
    roundNE (xor s t) (mant ea fa * mant eb fb) (expo ea + expo eb)

/-- The operation `/` of two doubles.  For finite non-zero operands the quotient of the
significands is taken to 128 extra bits and a sticky bit records a non-zero
remainder, which is enough to round correctly. -/
def div : Double → Double → Double
  | nan, _ => nan
  | _, nan => nan
  | inf _, inf _ => nan
  | inf s, fin t _ _ => inf (xor s t)
  | fin s _ _, inf t => fin (xor s t) ⟨0, by decide⟩ ⟨0, by decide⟩
  | fin s ea fa, fin t eb fb =>
    if mant eb fb = 0 then
      if mant ea fa = 0 then nan else inf (xor s t)
    else
      let N := mant ea fa * 2 ^ 128
      let q := N / mant eb fb
      let sticky := if N % mant eb fb = 0 then 0 else 1
      roundNE (xor s t) (2 * q + sticky) (expo ea - expo eb - 129)

/-- Largest `r` with `r * r ≤ n` below `acc + 2 ^ i`, found bit by bit from bit
`i - 1` downwards. -/
def isqrtAux (n : Nat) : Nat → Nat → Nat
  | 0, acc => acc
  | i + 1, acc =>
    if (acc + 2 ^ i) * (acc + 2 ^ i) ≤ n then isqrtAux n i (acc + 2 ^ i)
    else isqrtAux n i acc

/-- Integer square root. -/
def isqrt (n : Nat) : Nat := isqrtAux n (bitLen n / 2 + 1) 0

/-- The library function `std::sqrt` on doubles, correctly rounded. -/
def sqrt : Double → Double
  | nan => nan
  | inf s => if s then nan else inf false
  | fin s ex fr =>
    if mant ex fr = 0 then fin s ex fr
    else if s then nan
    else
      let sh : Nat := if expo ex % 2 = 0 then 128 else 129
      let N := mant ex fr * 2 ^ sh
      let r := isqrt N
      let sticky := if r * r = N then 0 else 1
      roundNE false (2 * r + sticky) ((expo ex - sh) / 2 - 1)

/-- The comparison `==` of two doubles: a NaN equals nothing, the two zeros are
equal. -/
def eq : Double → Double → Bool
  | nan, _ => false
  | _, nan => false
  | inf s, inf t => s == t
  | inf _, fin _ _ _ => false
  | fin _ _ _, inf _ => false
  | fin s ea fa, fin t eb fb =>
    (mant ea fa == 0 && mant eb fb == 0) || (s == t && ea == eb && fa == fb)

/-- The double with the given 64-bit pattern. -/
def ofBits (b : Nat) : Double :=
  let s := decide (b / 9223372036854775808 % 2 = 1)
  let ex := b / 4503599627370496 % 2048
  let fr := b % 4503599627370496
  if h : ex < 2047 then fin s ⟨ex, h⟩ ⟨fr, Nat.mod_lt _ (by decide)⟩
  else if fr = 0 then inf s else nan

/-- The double denoted by a decimal literal with the value `num / den`: the nearest
one. -/
def ofRatio (neg : Bool) (num den : Nat) : Double :=
  let N := num * 2 ^ (bitLen den + 64)
  let q := N / den
  let sticky := if N % den = 0 then 0 else 1
  roundNE neg (2 * q + sticky) (-(bitLen den : Int) - 65)

/-- The power `10 ^ n`. -/
def pow10 : Nat → Nat
  | 0 => 1
  | n + 1 => 10 * pow10 n

/-- The double denoted by the decimal literal `m e k`, with the value `m * 10 ^ k`. -/
def ofScientific (m : Nat) (k : Int) : Double :=
  if 0 ≤ k then ofRatio false (m * pow10 k.toNat) 1
  else ofRatio false m (pow10 (-k).toNat)

/-- The literal `0.0`. -/
def zero : Double := fin false ⟨0, by decide⟩ ⟨0, by decide⟩

/-- The literal `-0.0`. -/
def negZero : Double := fin true ⟨0, by decide⟩ ⟨0, by decide⟩

/-- The literal `1.0`. -/
def one : Double := fin false ⟨1023, by decide⟩ ⟨0, by decide⟩

/-- The literal `-1.0`. -/
def negOne : Double := fin true ⟨1023, by decide⟩ ⟨0, by decide⟩

/-- The constant `std::numeric_limits<double>::epsilon()`, `2 ^ -52`. -/
def epsilon : Double := fin false ⟨971, by decide⟩ ⟨0, by decide⟩

/-- The literal `1.0e308`, bit pattern `0x7FE1CCF385EBC8A0`. -/
def lit1e308 : Double := fin false ⟨2046, by decide⟩ ⟨0x1CCF385EBC8A0, by decide⟩

end Double

/-! ## `class Real` -/

/-- The exceptions the two headers throw: `std::domain_error` only. -/
inductive Exn where
  | domain_error : Exn
  deriving DecidableEq, Inhabited

/-- Equality of two outcomes is decidable, so that a concrete call can be evaluated. -/
instance instDecidableEqExcept {ε α : Type} [DecidableEq ε] [DecidableEq α] :
    DecidableEq (Except ε α)
  | Except.ok a, Except.ok b =>
    if h : a = b then isTrue (by rw [h]) else isFalse (by intro hh; cases hh; exact h rfl)
  | Except.error a, Except.error b =>
    if h : a = b then isTrue (by rw [h]) else isFalse (by intro hh; cases hh; exact h rfl)
  | Except.ok _, Except.error _ => isFalse (by intro hh; cases hh)
  | Except.error _, Except.ok _ => isFalse (by intro hh; cases hh)

/-- The class `Real`: one `double` data member. -/
structure Real where
  _value : Double
  deriving DecidableEq

namespace Real

/-- The helper `Real::isFinite`. -/
def isFinite (v : Double) : Bool := Double.isFinite v

/-- The default constructor `Real()`. -/
def ctorDefault : Real := { _value := Double.zero }

/-- The constructor `Real(T v)` at `T = double`: throws unless the value is finite. -/
def ctor (v : Double) : Except Exn Real :=
  if !isFinite v then Except.error Exn.domain_error
  else Except.ok { _value := v }

/-- The accessor `value()`. -/
def value (self : Real) : Double := self._value

/-- The member `operator+`. -/
def opAdd (self rhs : Real) : Except Exn Real :=
  let result := Double.add self._value rhs._value
  if !isFinite result then Except.error Exn.domain_error
  else ctor result

/-- The member `operator-`. -/
def opSub (self rhs : Real) : Except Exn Real :=
  let result := Double.sub self._value rhs._value
  if !isFinite result then Except.error Exn.domain_error
  else ctor result

/-- The member `operator*`. -/
def opMul (self rhs : Real) : Except Exn Real :=
  let result := Double.mul self._value rhs._value
  if !isFinite result then Except.error Exn.domain_error
  else ctor result

/-- The member `operator/`: the divisor is compared with `0.0` first. -/
def opDiv (self rhs : Real) : Except Exn Real :=
  if Double.eq rhs._value Double.zero then Except.error Exn.domain_error
  else
    let result := Double.div self._value rhs._value
    if !isFinite result then Except.error Exn.domain_error
    else ctor result

/-- The member `operator==`. -/
def opEq (self rhs : Real) : Bool := Double.eq self._value rhs._value

/-- The member `operator!=`. -/
def opNe (self rhs : Real) : Bool := !(opEq self rhs)

/-- The static member `epsilon()`, that is `Real(epsilon)`; the constructor's check
passes (`ctor_epsilon`). -/
def epsilon : Real := { _value := Double.epsilon }

/-- The static member `zero()`, that is `Real(0.0)`; the constructor's check passes
(`ctor_zero`). -/
def zero : Real := { _value := Double.zero }

/-- The static member `one()`, that is `Real(1.0)`; the constructor's check passes
(`ctor_one`). -/
def one : Real := { _value := Double.one }

/-- The Scalars the public interface of `Real` yields: the constructors, the named
constants, and every result an arithmetic operator returns. -/
inductive Obtainable : Real → Prop where
  | ctorDefault : Obtainable ctorDefault
  | ctor (d : Double) (r : Real) : ctor d = Except.ok r → Obtainable r
  | zero : Obtainable zero
  | one : Obtainable one
  | epsilon : Obtainable epsilon
  | opAdd (a b r : Real) : Obtainable a → Obtainable b → opAdd a b = Except.ok r → Obtainable r
  | opSub (a b r : Real) : Obtainable a → Obtainable b → opSub a b = Except.ok r → Obtainable r
  | opMul (a b r : Real) : Obtainable a → Obtainable b → opMul a b = Except.ok r → Obtainable r
  | opDiv (a b r : Real) : Obtainable a → Obtainable b → opDiv a b = Except.ok r → Obtainable r

end Real

/-! ## `struct Vector3` -/

/-- The struct `Vector3`: its data members in declaration order.  The two cache
members are `mutable` in the source. -/
structure Vector3 where
  _x : Real
  _y : Real
  _z : Real
  _normalized : Bool
  _magnitudeCache : Real
  _magnitudeCacheValid : Bool
  _unit : String
  deriving DecidableEq

namespace Vector3

/-- The marker `kInconsistentUnits`. -/
def kInconsistentUnits : String := "mixed units"

/-- The static helper `combineAdditiveUnits`. -/
def combineAdditiveUnits (lhs rhs : String) : String :=
  if lhs = rhs then lhs else kInconsistentUnits

/-- The default constructor `Vector3()`; the other members take their default member
initialisers. -/
def ctorDefault : Vector3 :=
  { _x := Real.zero, _y := Real.zero, _z := Real.zero, _normalized := false,
    _magnitudeCache := Real.zero, _magnitudeCacheValid := false, _unit := "dimensionless" }

/-- The constructor `Vector3(x, y, z)`. -/
def ctor (x y z : Real) : Vector3 :=
  { _x := x, _y := y, _z := z, _normalized := false,
    _magnitudeCache := Real.zero, _magnitudeCacheValid := false, _unit := "dimensionless" }

/-- The accessor `x()`. -/
def x (self : Vector3) : Real := self._x

/-- The accessor `y()`. -/
def y (self : Vector3) : Real := self._y

/-- The accessor `z()`. -/
def z (self : Vector3) : Real := self._z

/-- The accessor `isNormalized()`. -/
def isNormalized (self : Vector3) : Bool := self._normalized

/-- The accessor `unit()`. -/
def unit (self : Vector3) : String := self._unit

/-- The member `InvalidateCache()`. -/
def InvalidateCache (self : Vector3) : Vector3 :=
  { self with _magnitudeCache := Real.zero, _magnitudeCacheValid := false, _normalized := false }

/-- The mutator `setX`. -/
def setX (self : Vector3) (x : Real) : Vector3 :=
  InvalidateCache { self with _x := x }

/-- The mutator `setY`. -/
def setY (self : Vector3) (y : Real) : Vector3 :=
  InvalidateCache { self with _y := y }

/-- The mutator `setZ`. -/
def setZ (self : Vector3) (z : Real) : Vector3 :=
  InvalidateCache { self with _z := z }

/-- The mutator `setComponents`. -/
def setComponents (self : Vector3) (x y z : Real) : Vector3 :=
  InvalidateCache { self with _x := x, _y := y, _z := z }

/-- The mutator `setUnit`. -/
def setUnit (self : Vector3) (unit : String) : Vector3 :=
  { self with _unit := unit }

/-- The member `MagnitudeSquared()`: `_x * _x + _y * _y + _z * _z` in `Real`
arithmetic, which throws as soon as one of the five operations does. -/
def MagnitudeSquared (self : Vector3) : Except Exn Real := do
  let xx ← Real.opMul self._x self._x
  let yy ← Real.opMul self._y self._y
  let s ← Real.opAdd xx yy
  let zz ← Real.opMul self._z self._z
  Real.opAdd s zz

/-- The member `Magnitude()`: the result, and the receiver with its `mutable` cache as
the call leaves it. -/
def Magnitude (self : Vector3) : Except Exn Real × Vector3 :=
  if !self._magnitudeCacheValid then
    match MagnitudeSquared self with
    | Except.error e => (Except.error e, self)
    | Except.ok magSquared =>
      match Real.ctor (Double.sqrt magSquared.value) with
      | Except.error e => (Except.error e, self)
      | Except.ok m =>
        (Except.ok m, { self with _magnitudeCache := m, _magnitudeCacheValid := true })
  else (Except.ok self._magnitudeCache, self)

/-- The member `Normalized()`: the result, and the receiver as the call leaves it (its
cache is written by the call to `Magnitude()`). -/
def Normalized (self : Vector3) : Except Exn Vector3 × Vector3 :=
  match Magnitude self with
  | (Except.error e, self1) => (Except.error e, self1)
  | (Except.ok len, self1) =>
    if Real.opEq len Real.zero then (Except.ok self1, self1)
    else
      match Real.opDiv self1._x len with
      | Except.error e => (Except.error e, self1)
      | Except.ok rx =>
        match Real.opDiv self1._y len with
        | Except.error e => (Except.error e, self1)
        | Except.ok ry =>
          match Real.opDiv self1._z len with
          | Except.error e => (Except.error e, self1)
          | Except.ok rz =>
            (Except.ok { ctor rx ry rz with
                _normalized := true, _unit := self1._unit,
                _magnitudeCache := Real.one, _magnitudeCacheValid := true }, self1)

/-- The member `Normalize()`: whether it threw, and the receiver as the call leaves
it.  The components are assigned one after the other. -/
def Normalize (self : Vector3) : Except Exn Unit × Vector3 :=
  match Magnitude self with
  | (Except.error e, self1) => (Except.error e, self1)
  | (Except.ok len, self1) =>
    if Real.opEq len Real.zero then (Except.ok (), self1)
    else
      match Real.opDiv self1._x len with
      | Except.error e => (Except.error e, self1)
      | Except.ok rx =>
        let self2 := { self1 with _x := rx }
        match Real.opDiv self2._y len with
        | Except.error e => (Except.error e, self2)
        | Except.ok ry =>
          let self3 := { self2 with _y := ry }
          match Real.opDiv self3._z len with
          | Except.error e => (Except.error e, self3)
          | Except.ok rz =>
            (Except.ok (), { self3 with
                _z := rz, _normalized := true,
                _magnitudeCache := Real.one, _magnitudeCacheValid := true })

/-- The member `Dot`. -/
def Dot (self rhs : Vector3) : Except Exn Real := do
  let xx ← Real.opMul self._x rhs._x
  let yy ← Real.opMul self._y rhs._y
  let s ← Real.opAdd xx yy
  let zz ← Real.opMul self._z rhs._z
  Real.opAdd s zz

/-- The member `Cross`. -/
def Cross (self rhs : Vector3) : Except Exn Vector3 := do
  let yz ← Real.opMul self._y rhs._z
  let zy ← Real.opMul self._z rhs._y
  let cx ← Real.opSub yz zy
  let zx ← Real.opMul self._z rhs._x
  let xz ← Real.opMul self._x rhs._z
  let cy ← Real.opSub zx xz
  let xy ← Real.opMul self._x rhs._y
  let yx ← Real.opMul self._y rhs._x
  let cz ← Real.opSub xy yx
  pure { ctor cx cy cz with _unit := combineAdditiveUnits self._unit rhs._unit }

/-- The member `operator+=`: whether it threw, and the receiver as the call leaves
it. -/
def opAddAssign (self rhs : Vector3) : Except Exn Unit × Vector3 :=
  match Real.opAdd self._x rhs._x with
  | Except.error e => (Except.error e, self)
  | Except.ok rx =>
    let self1 := { self with _x := rx }
    match Real.opAdd self1._y rhs._y with
    | Except.error e => (Except.error e, self1)
    | Except.ok ry =>
      let self2 := { self1 with _y := ry }
      match Real.opAdd self2._z rhs._z with
      | Except.error e => (Except.error e, self2)
      | Except.ok rz =>
        (Except.ok (), InvalidateCache { self2 with
            _z := rz, _unit := combineAdditiveUnits self2._unit rhs._unit })

/-- The member `operator-=`. -/
def opSubAssign (self rhs : Vector3) : Except Exn Unit × Vector3 :=
  match Real.opSub self._x rhs._x with
  | Except.error e => (Except.error e, self)
  | Except.ok rx =>
    let self1 := { self with _x := rx }
    match Real.opSub self1._y rhs._y with
    | Except.error e => (Except.error e, self1)
    | Except.ok ry =>
      let self2 := { self1 with _y := ry }
      match Real.opSub self2._z rhs._z with
      | Except.error e => (Except.error e, self2)
      | Except.ok rz =>
        (Except.ok (), InvalidateCache { self2 with
            _z := rz, _unit := combineAdditiveUnits self2._unit rhs._unit })

/-- The member `operator*=`. -/
def opMulAssign (self : Vector3) (scalar : Real) : Except Exn Unit × Vector3 :=
  match Real.opMul self._x scalar with
  | Except.error e => (Except.error e, self)
  | Except.ok rx =>
    let self1 := { self with _x := rx }
    match Real.opMul self1._y scalar with
    | Except.error e => (Except.error e, self1)
    | Except.ok ry =>
      let self2 := { self1 with _y := ry }
      match Real.opMul self2._z scalar with
      | Except.error e => (Except.error e, self2)
      | Except.ok rz => (Except.ok (), InvalidateCache { self2 with _z := rz })

/-- The member `operator/=`. -/
def opDivAssign (self : Vector3) (scalar : Real) : Except Exn Unit × Vector3 :=
  match Real.opDiv self._x scalar with
  | Except.error e => (Except.error e, self)
  | Except.ok rx =>
    let self1 := { self with _x := rx }
    match Real.opDiv self1._y scalar with
    | Except.error e => (Except.error e, self1)
    | Except.ok ry =>
      let self2 := { self1 with _y := ry }
      match Real.opDiv self2._z scalar with
      | Except.error e => (Except.error e, self2)
      | Except.ok rz => (Except.ok (), InvalidateCache { self2 with _z := rz })

/-- The result of a compound assignment applied to a copy: the copy when the
assignment returned, nothing when it threw (the copy is destroyed). -/
def onCopy (r : Except Exn Unit × Vector3) : Except Exn Vector3 :=
  match r.1 with
  | Except.error e => Except.error e
  | Except.ok _ => Except.ok r.2

/-- The unary member `operator-`: `result *= Real(-1.0)` on a copy. -/
def opNeg (self : Vector3) : Except Exn Vector3 :=
  match Real.ctor Double.negOne with
  | Except.error e => Except.error e
  | Except.ok minusOne => onCopy (opMulAssign self minusOne)

/-- The member `operator==`. -/
def opEq (self rhs : Vector3) : Bool :=
  Real.opEq self._x rhs._x && Real.opEq self._y rhs._y && Real.opEq self._z rhs._z
    && decide (self._unit = rhs._unit)

/-- The member `operator!=`. -/
def opNe (self rhs : Vector3) : Bool := !(opEq self rhs)

/-- The binary member `operator+`. -/
def opAdd (self rhs : Vector3) : Except Exn Vector3 := onCopy (opAddAssign self rhs)

/-- The binary member `operator-`. -/
def opSub (self rhs : Vector3) : Except Exn Vector3 := onCopy (opSubAssign self rhs)

/-- The member `operator*` by a scalar. -/
def opMul (self : Vector3) (scalar : Real) : Except Exn Vector3 :=
  onCopy (opMulAssign self scalar)

/-- The member `operator/` by a scalar. -/
def opDiv (self : Vector3) (scalar : Real) : Except Exn Vector3 :=
  onCopy (opDivAssign self scalar)

/-- The friend `operator*` with the scalar on the left. -/
def opMulLeft (scalar : Real) (vec : Vector3) : Except Exn Vector3 := opMul vec scalar

/-- The magnitude computed afresh from the current components, as the body of
`Magnitude()` does when the cache is not valid: `Real(std::sqrt(MagnitudeSquared().value()))`. -/
def recomputed (self : Vector3) : Except Exn Real :=
  match MagnitudeSquared self with
  | Except.error e => Except.error e
  | Except.ok magSquared => Real.ctor (Double.sqrt magSquared.value)

/-- The value `sqrt(x*x + y*y + z*z)` of the current components, in plain `double`
arithmetic: what the magnitude cache is meant to hold. -/
def sqrtSumSquares (self : Vector3) : Double :=
  Double.sqrt (Double.add
    (Double.add (Double.mul self._x._value self._x._value)
      (Double.mul self._y._value self._y._value))
    (Double.mul self._z._value self._z._value))

/-- The states of a `Vector3` object that a program can reach through the public
members, starting from a constructor, with Scalars the interface of `Real` yields as
arguments.  Copies are the same value.  A `const` member that threw leaves the receiver
as it was, up to the cache written by `Magnitude()`; with `failed = true` the receiver
left behind by a compound assignment or a `Normalize()` that threw is a state too.
With `failed = false` only the receivers that such a throwing call has partly
reassigned are left out: when it throws before its first assignment the receiver is
the state before the call, or that state after `Magnitude()`. -/
inductive Reach (failed : Bool) : Vector3 → Prop where
  | ctorDefault : Reach failed ctorDefault
  | ctor (x y z : Real) :
      Real.Obtainable x → Real.Obtainable y → Real.Obtainable z → Reach failed (ctor x y z)
  | setX (v : Vector3) (x : Real) :
      Reach failed v → Real.Obtainable x → Reach failed (setX v x)
  | setY (v : Vector3) (y : Real) :
      Reach failed v → Real.Obtainable y → Reach failed (setY v y)
  | setZ (v : Vector3) (z : Real) :
      Reach failed v → Real.Obtainable z → Reach failed (setZ v z)
  | setComponents (v : Vector3) (x y z : Real) :
      Reach failed v → Real.Obtainable x → Real.Obtainable y → Real.Obtainable z →
      Reach failed (setComponents v x y z)
  | setUnit (v : Vector3) (u : String) : Reach failed v → Reach failed (setUnit v u)
  | InvalidateCache (v : Vector3) : Reach failed v → Reach failed (InvalidateCache v)
  | Magnitude (v : Vector3) : Reach failed v → Reach failed (Magnitude v).2
  | NormalizedReceiver (v : Vector3) : Reach failed v → Reach failed (Normalized v).2
  | Normalized (v r : Vector3) :
      Reach failed v → (Normalized v).1 = Except.ok r → Reach failed r
  | Normalize (v : Vector3) :
      Reach failed v → (failed = true ∨ (Normalize v).1 = Except.ok ()) →
      Reach failed (Normalize v).2
  | Cross (a b r : Vector3) :
      Reach failed a → Reach failed b → Cross a b = Except.ok r → Reach failed r
  | opNeg (v r : Vector3) : Reach failed v → opNeg v = Except.ok r → Reach failed r
  | opAddAssign (v w : Vector3) :
      Reach failed v → Reach failed w →
      (failed = true ∨ (opAddAssign v w).1 = Except.ok ()) →
      Reach failed (opAddAssign v w).2
  | opSubAssign (v w : Vector3) :
      Reach failed v → Reach failed w →
      (failed = true ∨ (opSubAssign v w).1 = Except.ok ()) →
      Reach failed (opSubAssign v w).2
  | opMulAssign (v : Vector3) (s : Real) :
      Reach failed v → Real.Obtainable s →
      (failed = true ∨ (opMulAssign v s).1 = Except.ok ()) →
      Reach failed (opMulAssign v s).2
  | opDivAssign (v : Vector3) (s : Real) :
      Reach failed v → Real.Obtainable s →
      (failed = true ∨ (opDivAssign v s).1 = Except.ok ()) →
      Reach failed (opDivAssign v s).2
  | opAdd (a b r : Vector3) :
      Reach failed a → Reach failed b → opAdd a b = Except.ok r → Reach failed r
  | opSub (a b r : Vector3) :
      Reach failed a → Reach failed b → opSub a b = Except.ok r → Reach failed r
  | opMul (v : Vector3) (s : Real) (r : Vector3) :
      Reach failed v → Real.Obtainable s → opMul v s = Except.ok r → Reach failed r
  | opDiv (v : Vector3) (s : Real) (r : Vector3) :
      Reach failed v → Real.Obtainable s → opDiv v s = Except.ok r → Reach failed r
  | opMulLeft (s : Real) (v r : Vector3) :
      Reach failed v → Real.Obtainable s → opMulLeft s v = Except.ok r → Reach failed r

/-- What a compound assignment that threw leaves of the receiver `v`: the unit tag, the
normalized flag, the cache and its validity flag are those of `v`, and so are the
components from the failing one onwards; the components before it hold their new
values.  `cx`, `cy`, `cz` are the three component computations in order, and `v1` is the
receiver after the call. -/
def LeftPartial (v v1 : Vector3) (cx cy cz : Except Exn Real) : Prop :=
  v1._z = v._z ∧ v1._unit = v._unit ∧ v1._normalized = v._normalized ∧
  v1._magnitudeCache = v._magnitudeCache ∧
  v1._magnitudeCacheValid = v._magnitudeCacheValid ∧
  ((cx = Except.error Exn.domain_error ∧ v1._x = v._x ∧ v1._y = v._y) ∨
   (cx = Except.ok v1._x ∧ cy = Except.error Exn.domain_error ∧ v1._y = v._y) ∨
   (cx = Except.ok v1._x ∧ cy = Except.ok v1._y ∧ cz = Except.error Exn.domain_error))

/-- The invariant of the normalized flag: a vector marked normalized has a valid cache
holding exactly one.  All components and the cache hold finite values. -/
def NormalizedInv (v : Vector3) : Prop :=
  (v._normalized = true → v._magnitudeCacheValid = true ∧ v._magnitudeCache = Real.one) ∧
  v._x._value.isFinite = true ∧ v._y._value.isFinite = true ∧ v._z._value.isFinite = true ∧
  v._magnitudeCache._value.isFinite = true

/-- The invariant of the magnitude cache: a valid cache holds `sqrt(x*x + y*y + z*z)` of
the current components, or the vector is marked normalized and the cache holds the one
that `Normalize()` and `Normalized()` store without computing it. -/
def CacheInv (v : Vector3) : Prop :=
  v._magnitudeCacheValid = true →
    v._magnitudeCache._value = sqrtSumSquares v ∨
    (v._normalized = true ∧ v._magnitudeCache = Real.one)

/-- The expression `p * q - r * s` in `Real` arithmetic: the shape of each component
that `Cross` computes. -/
def crossTerm (p q r s : Real) : Except Exn Real := do
  let pq ← Real.opMul p q
  let rs ← Real.opMul r s
  Real.opSub pq rs

end Vector3

/-! ## Concrete values for the examples -/

namespace Example

/-- The Scalar `Real(2.0)`. -/
def two : Real := { _value := Double.ofBits 0x4000000000000000 }

/-- The Scalar `Real(3.0)`. -/
def three : Real := { _value := Double.ofBits 0x4008000000000000 }

/-- The Scalar `Real(4.0)`. -/
def four : Real := { _value := Double.ofBits 0x4010000000000000 }

/-- The Scalar `Real(5.0)`. -/
def five : Real := { _value := Double.ofBits 0x4014000000000000 }

/-- The Scalar `Real(1.0e308)`. -/
def r1e308 : Real := { _value := Double.lit1e308 }

/-- The Scalar `Real(5.0e307)`. -/
def r5e307 : Real := { _value := Double.ofBits 0x7FD1CCF385EBC8A0 }

/-- The Scalar `Real(1.0e200)`. -/
def r1e200 : Real := { _value := Double.ofBits 0x6974E718D7D7625A }

/-- The Scalar `Real(1.0e-200)`. -/
def r1em200 : Real := { _value := Double.ofBits 0x16687E92154EF7AC }

/-- The vector `Vector3(Real(1.0), Real(1.0), Real(0.0))`. -/
def vDiagonal : Vector3 := Vector3.ctor Real.one Real.one Real.zero

/-- The Scalar `Real(0.7071067811865475)`, the quotient `1.0 / sqrt(2.0)`. -/
def rInvSqrt2 : Real := { _value := Double.ofBits 0x3FE6A09E667F3BCC }

/-- The vector that `Vector3(1,1,0).Normalized()` returns. -/
def vDiagonalUnit : Vector3 :=
  { _x := rInvSqrt2, _y := rInvSqrt2, _z := Real.zero, _normalized := true,
    _magnitudeCache := Real.one, _magnitudeCacheValid := true, _unit := "dimensionless" }

/-- The vector `Vector3(Real(3.0), Real(4.0), Real(0.0))`. -/
def v340 : Vector3 := Vector3.ctor three four Real.zero

/-- The vector that `Vector3(3,4,0).Normalized()` returns: `(0.6, 0.8, 0)`, bits
`0x3FE3333333333333` and `0x3FE999999999999A`. -/
def v340Unit : Vector3 :=
  { _x := { _value := Double.ofBits 0x3FE3333333333333 },
    _y := { _value := Double.ofBits 0x3FE999999999999A },
    _z := Real.zero, _normalized := true,
    _magnitudeCache := Real.one, _magnitudeCacheValid := true, _unit := "dimensionless" }

/-- The vector `Vector3(Real(1.0e200), Real(0.0), Real(0.0))`. -/
def vHuge : Vector3 := Vector3.ctor r1e200 Real.zero Real.zero

/-- The vector `Vector3(Real(1.0e-200), Real(0.0), Real(0.0))`. -/
def vTiny : Vector3 := Vector3.ctor r1em200 Real.zero Real.zero

/-- The Scalar `Real(5.0e-324)`, the smallest positive double. -/
def rMinSubnormal : Real := { _value := Double.ofBits 0x0000000000000001 }

/-- The vector `Vector3(Real(4.0e-16), Real(1.0e-15), Real(0.0))`. -/
def vSmall : Vector3 :=
  Vector3.ctor { _value := Double.ofBits 0x3CBCD2B297D889BC }
    { _value := Double.ofBits 0x3CD203AF9EE75616 } Real.zero

/-- The state of `vSmall` after `Magnitude()`, which caches `1.0770329614269008e-15`, and
then a `/= Real(5.0e-324)` that throws at the second component: `x` already holds
`8.096090132292425e307`. -/
def vSmallStale : Vector3 :=
  (Vector3.opDivAssign (Vector3.Magnitude vSmall).2 rMinSubnormal).2

/-- The vector `Vector3(Real(0.0), Real(0.0), Real(0.0))`. -/
def vZero : Vector3 := Vector3.ctor Real.zero Real.zero Real.zero

/-- The vector `Vector3(Real(1.0), Real(1.0e308), Real(0.0))`. -/
def vBig : Vector3 := Vector3.ctor Real.one r1e308 Real.zero

/-- The Scalar `Real(-1.0)`. -/
def minusOne : Real := { _value := Double.negOne }

/-- The Scalar `Real(25.0)`. -/
def twentyFive : Real := { _value := Double.ofBits 0x4039000000000000 }

/-- The vector `Vector3(Real(1.0), Real(0.0), Real(0.0))`. -/
def e1 : Vector3 := Vector3.ctor Real.one Real.zero Real.zero

/-- The vector `Vector3(Real(0.0), Real(1.0), Real(0.0))`. -/
def e2 : Vector3 := Vector3.ctor Real.zero Real.one Real.zero

/-- The vector `Vector3(Real(0.0), Real(0.0), Real(1.0))`. -/
def e3 : Vector3 := Vector3.ctor Real.zero Real.zero Real.one

/-- The Scalar `Real(4.0e-309)`, a subnormal. -/
def r4em309 : Real := { _value := Double.ofBits 0x0002E055C9A3F6BA }

/-- The state of `v340Unit`, which is marked normalized, after a `/= Real(4.0e-309)` that
throws at the second component: `x` already holds `1.5000000000000008e308`. -/
def vUnitStale : Vector3 := (Vector3.opDivAssign v340Unit r4em309).2

/-- The vector `-Vector3(3,4,0).Normalized()`: `(-0.6, -0.8, -0.0)`, not marked
normalized, cache not valid. -/
def v340UnitNeg : Vector3 :=
  { _x := { _value := Double.ofBits 0xBFE3333333333333 },
    _y := { _value := Double.ofBits 0xBFE999999999999A },
    _z := { _value := Double.negZero }, _normalized := false,
    _magnitudeCache := Real.zero, _magnitudeCacheValid := false, _unit := "dimensionless" }

/-- The vector `Vector3(Real(3.0), Real(4.0), Real(0.0))` tagged `"m"`. -/
def vMetres : Vector3 := Vector3.setUnit (Vector3.ctor three four Real.zero) "m"

/-- The vector `Vector3(Real(1.0), Real(2.0), Real(3.0))` tagged `"s"`. -/
def vSeconds : Vector3 := Vector3.setUnit (Vector3.ctor Real.one two three) "s"

end Example

/-! ## The arithmetic model on known values -/

namespace Double

/-- The model reproduces well-known binary64 results: `0.1 + 0.2` is
`0.30000000000000004`, `1.0 / 3.0` is `0.3333333333333333`, `sqrt(2.0)` is
`1.4142135623730951`, the largest finite double plus itself overflows, the smallest
subnormal halved underflows to zero, and `0.0 == -0.0`. -/
theorem model_known_values :
    add (ofScientific 1 (-1)) (ofScientific 2 (-1)) = ofBits 0x3FD3333333333334 ∧
    ofScientific 30000000000000004 (-17) = ofBits 0x3FD3333333333334 ∧
    div one (ofBits 0x4008000000000000) = ofBits 0x3FD5555555555555 ∧
    sqrt (ofBits 0x4000000000000000) = ofBits 0x3FF6A09E667F3BCD ∧
    add (ofBits 0x7FEFFFFFFFFFFFFF) (ofBits 0x7FEFFFFFFFFFFFFF) = inf false ∧
    mul (ofBits 0x0000000000000001) (ofBits 0x3FE0000000000000) = zero ∧
    sub one one = zero ∧
    mul negOne zero = negZero ∧
    eq zero negZero = true ∧
    eq nan nan = false := by
  decide

/-! ## General facts about the arithmetic model -/

/-- The digit count brackets its argument between two consecutive powers of two. -/
theorem bitLenAux_spec : ∀ (fuel n : Nat), n ≤ fuel →
    n < 2 ^ bitLenAux fuel n ∧ (0 < n → 2 ^ (bitLenAux fuel n - 1) ≤ n)
  | 0, n, h => by
    have : n = 0 := by omega
    subst this
    simp [bitLenAux]
  | fuel + 1, n, h => by
    unfold bitLenAux
    by_cases hn : n = 0
    · simp [hn]
    · simp only [hn, if_false]
      have ih := bitLenAux_spec fuel (n / 2) (by omega)
      obtain ⟨ih1, ih2⟩ := ih
      constructor
      · rw [pow_succ]; omega
      · intro _
        simp only [Nat.add_sub_cancel]
        by_cases h2 : n / 2 = 0
        · have h1 : n = 1 := by omega
          subst h1
          have : bitLenAux fuel (1 / 2) = 0 := by
            cases fuel <;> simp [bitLenAux]
          rw [this]; simp
        · have hpos : 0 < n / 2 := Nat.pos_of_ne_zero h2
          have hk := ih2 hpos
          have hk1 : 1 ≤ bitLenAux fuel (n / 2) := by
            by_contra hc
            have : bitLenAux fuel (n / 2) = 0 := by omega
            rw [this] at ih1
            omega
          have : 2 ^ bitLenAux fuel (n / 2) = 2 * 2 ^ (bitLenAux fuel (n / 2) - 1) := by
            conv_lhs => rw [show bitLenAux fuel (n / 2) = (bitLenAux fuel (n / 2) - 1) + 1 by omega]
            rw [pow_succ]; ring
          omega

theorem bitLen_lt (n : Nat) : n < 2 ^ bitLen n := (bitLenAux_spec n n (le_refl n)).1

theorem bitLen_le (n : Nat) (h : 0 < n) : 2 ^ (bitLen n - 1) ≤ n :=
  (bitLenAux_spec n n (le_refl n)).2 h

/-- The number of binary digits is determined by the two powers of two around `n`. -/
theorem bitLen_eq_of_bounds (n k : Nat) (h1 : 2 ^ k ≤ n) (h2 : n < 2 ^ (k + 1)) :
    bitLen n = k + 1 := by
  have hpos : 0 < n := lt_of_lt_of_le (Nat.two_pow_pos k) h1
  have a := bitLen_lt n
  have b := bitLen_le n hpos
  have h3 : k < bitLen n := by
    by_contra hc
    have : 2 ^ bitLen n ≤ 2 ^ k := Nat.pow_le_pow_right (by decide) (by omega)
    omega
  have h4 : bitLen n - 1 < k + 1 := by
    by_contra hc
    have : 2 ^ (k + 1) ≤ 2 ^ (bitLen n - 1) := Nat.pow_le_pow_right (by decide) (by omega)
    omega
  omega

theorem bitLen_mul_pow (m k : Nat) (hm : 0 < m) : bitLen (m * 2 ^ k) = bitLen m + k := by
  have a := bitLen_lt m
  have b := bitLen_le m hm
  have hb : 1 ≤ bitLen m := by
    by_contra hc
    have : bitLen m = 0 := by omega
    rw [this] at a
    omega
  have h1 : 2 ^ (bitLen m - 1 + k) ≤ m * 2 ^ k := by
    rw [pow_add]; exact Nat.mul_le_mul_right _ b
  have h2 : m * 2 ^ k < 2 ^ (bitLen m - 1 + k + 1) := by
    have : bitLen m - 1 + k + 1 = bitLen m + k := by omega
    rw [this, pow_add]
    exact Nat.mul_lt_mul_of_pos_right a (Nat.two_pow_pos k)
  rw [bitLen_eq_of_bounds _ _ h1 h2]
  omega

/-- Rounding `m * 2 ^ k` at exponent `e - k` when the last place of the result has
exponent `e`: the `k` low bits are zero, so nothing is rounded away. -/
theorem roundNE_exact (n : Bool) (m k : Nat) (e : Int) (hm : m ≠ 0)
    (he : max (e - (k : Int) + (bitLen (m * 2 ^ k) : Int) - 53) (-1074) = e)
    (hm53 : m ≠ 9007199254740992) :
    roundNE n (m * 2 ^ k) (e - (k : Int)) = pack n m e := by
  have hM : m * 2 ^ k ≠ 0 := Nat.mul_ne_zero hm (Nat.pos_iff_ne_zero.mp (Nat.two_pow_pos k))
  unfold roundNE
  simp only [hM, if_false, he]
  by_cases hk : k = 0
  · subst hk
    simp [hm53]
  · have h1 : ¬ (e ≤ e - (k : Int)) := by omega
    have h2 : (e - (e - (k : Int))).toNat = k := by omega
    have h3 : m * 2 ^ k / 2 ^ k = m := Nat.mul_div_cancel _ (Nat.two_pow_pos k)
    have h4 : m * 2 ^ k % 2 ^ k = 0 := Nat.mul_mod_left _ _
    have h5 : 0 < 2 ^ (k - 1) := Nat.two_pow_pos _
    simp only [h1, if_false, h2, h3, h4]
    have h6 : ¬ (2 ^ (k - 1) < 0 ∨ 0 = 2 ^ (k - 1) ∧ m % 2 = 1) := by omega
    simp only [h6, if_false, hm53]

/-- Rounding is exact on a value that is a double already: the significand and
exponent of a finite double, scaled by any power of two, round to that double. -/
theorem roundNE_canonical (n : Bool) (ex : Fin 2047) (fr : Fin 4503599627370496) (k : Nat) :
    roundNE n (mant ex fr * 2 ^ k) (expo ex - (k : Int)) = fin n ex fr := by
  obtain ⟨exv, hex⟩ := ex
  obtain ⟨frv, hfr⟩ := fr
  by_cases hm0 : mant ⟨exv, hex⟩ ⟨frv, hfr⟩ = 0
  · have h1 : exv = 0 ∧ frv = 0 := by
      simp only [mant] at hm0
      split at hm0 <;> omega
    obtain ⟨rfl, rfl⟩ := h1
    simp [roundNE, mant]
  · have hpos : 0 < mant ⟨exv, hex⟩ ⟨frv, hfr⟩ := Nat.pos_of_ne_zero hm0
    have hM : mant ⟨exv, hex⟩ ⟨frv, hfr⟩ * 2 ^ k ≠ 0 :=
      Nat.mul_ne_zero hm0 (Nat.pos_iff_ne_zero.mp (Nat.two_pow_pos k))
    have hbl := bitLen_mul_pow _ k hpos
    have hlt := bitLen_lt (mant ⟨exv, hex⟩ ⟨frv, hfr⟩)
    have hle := bitLen_le (mant ⟨exv, hex⟩ ⟨frv, hfr⟩) hpos
    by_cases h0 : exv = 0
    · subst h0
      have hmant : mant ⟨0, hex⟩ ⟨frv, hfr⟩ = frv := by simp [mant]
      have hexpo : expo ⟨0, hex⟩ = -1074 := by simp [expo]
      rw [hmant] at hbl hlt hle hm0 ⊢
      rw [hexpo]
      have hb52 : bitLen frv ≤ 52 := by
        by_contra hc
        have : 2 ^ 52 ≤ 2 ^ (bitLen frv - 1) := Nat.pow_le_pow_right (by decide) (by omega)
        omega
      rw [roundNE_exact n frv k (-1074) hm0 (by rw [hbl]; push_cast; omega) (by omega)]
      simp [pack, hfr, Nat.mod_eq_of_lt hfr]
    · have hmant : mant ⟨exv, hex⟩ ⟨frv, hfr⟩ = 4503599627370496 + frv := by simp [mant, h0]
      have hexpo : expo ⟨exv, hex⟩ = (exv : Int) - 1075 := by simp [expo, h0]
      rw [hmant] at hbl hm0 ⊢
      rw [hexpo]
      have hb53 : bitLen (4503599627370496 + frv) = 53 :=
        bitLen_eq_of_bounds _ 52 (by omega) (by omega)
      rw [roundNE_exact n _ k _ hm0 (by rw [hbl, hb53]; push_cast; omega) (by omega)]
      have hnot : ¬ (4503599627370496 + frv < 4503599627370496) := by omega
      have hex2 : ((exv : Int) - 1075 + 1075).toNat = exv := by omega
      simp only [pack, hnot, if_false]
      have hmod : (4503599627370496 + frv) % 4503599627370496 = frv := by omega
      simp [hex2, hex, hmod]

theorem pack_neg (n : Bool) (m : Nat) (e : Int) : pack (!n) m e = neg (pack n m e) := by
  unfold pack
  split
  · rfl
  · split <;> rfl

/-- The sign passes through rounding unchanged. -/
theorem roundNE_neg (n : Bool) (M : Nat) (E : Int) :
    roundNE (!n) M E = neg (roundNE n M E) := by
  unfold roundNE
  split
  · rfl
  · simp only [pack_neg, apply_ite neg]

/-- Multiplication of doubles is commutative. -/
theorem mul_comm (a b : Double) : mul a b = mul b a := by
  cases a <;> cases b <;> simp [mul, Nat.mul_comm, Int.add_comm, Bool.xor_comm]

/-- Multiplying a finite double by `-1.0` flips its sign bit and nothing else. -/
theorem mul_negOne (s : Bool) (ex : Fin 2047) (fr : Fin 4503599627370496) :
    mul (fin s ex fr) negOne = fin (!s) ex fr := by
  have h := roundNE_canonical (!s) ex fr 52
  have h1 : mant ⟨1023, by decide⟩ ⟨0, by decide⟩ = 2 ^ 52 := by decide
  have h2 : expo ⟨1023, by decide⟩ = -52 := by decide
  simp only [mul, negOne, h1, h2]
  have h3 : expo ex + -52 = expo ex - ((52 : Nat) : Int) := by push_cast; ring
  rw [h3, Bool.xor_true]
  exact h

/-- The product of a finite double and `-1.0` is finite. -/
theorem mul_negOne_isFinite (d : Double) (h : d.isFinite = true) :
    (mul d negOne).isFinite = true := by
  cases d with
  | nan => cases h
  | inf s => cases h
  | fin s ex fr => rw [mul_negOne]; rfl

/-- Dividing a finite double by `1.0` gives it back. -/
theorem div_one (s : Bool) (ex : Fin 2047) (fr : Fin 4503599627370496) :
    div (fin s ex fr) one = fin s ex fr := by
  have h1 : mant ⟨1023, by decide⟩ ⟨0, by decide⟩ = 4503599627370496 := by decide
  have h2 : expo ⟨1023, by decide⟩ = -52 := by decide
  simp only [div, one, h1, h2]
  have hne : ¬ (4503599627370496 = 0) := by decide
  simp only [hne, if_false, Bool.xor_false]
  have hq : mant ex fr * 2 ^ 128 / 4503599627370496 = mant ex fr * 2 ^ 76 := by
    have : (2 : Nat) ^ 128 = 2 ^ 76 * 4503599627370496 := by norm_num
    rw [this, ← Nat.mul_assoc]
    exact Nat.mul_div_cancel _ (by decide)
  have hr : mant ex fr * 2 ^ 128 % 4503599627370496 = 0 := by
    have : (2 : Nat) ^ 128 = 2 ^ 76 * 4503599627370496 := by norm_num
    rw [this, ← Nat.mul_assoc]
    exact Nat.mul_mod_left _ _
  simp only [hq, hr, if_true]
  have h := roundNE_canonical s ex fr 77
  have h3 : 2 * (mant ex fr * 2 ^ 76) + 0 = mant ex fr * 2 ^ 77 := by ring
  have h4 : expo ex - -52 - 129 = expo ex - ((77 : Nat) : Int) := by push_cast; ring
  rw [h3, h4]
  exact h

/-- A finite double compares equal to itself. -/
theorem eq_self_of_finite (d : Double) (h : d.isFinite = true) : Double.eq d d = true := by
  cases d with
  | nan => cases h
  | inf s => cases h
  | fin s ex fr => simp [Double.eq]

theorem signed_not (s : Bool) (m : Nat) : signed (!s) m = -signed s m := by
  cases s <;> simp [signed]

theorem neg_neg (d : Double) : neg (neg d) = d := by
  cases d <;> simp [neg]

theorem isFinite_neg (d : Double) : (neg d).isFinite = d.isFinite := by
  cases d <;> rfl

/-- Addition of doubles is commutative. -/
theorem add_comm (a b : Double) : add a b = add b a := by
  cases a with
  | nan => cases b <;> rfl
  | inf s =>
    cases b with
    | nan => rfl
    | inf t => cases s <;> cases t <;> rfl
    | fin t eb fb => rfl
  | fin s ea fa =>
    cases b with
    | nan => rfl
    | inf t => rfl
    | fin t eb fb =>
      simp only [add]
      rw [Int.add_comm (signed t _) (signed s _), min_comm (expo eb) (expo ea),
        Bool.and_comm t s]

/-- A finite double minus itself is `+0.0`. -/
theorem sub_self (d : Double) (h : d.isFinite = true) : sub d d = zero := by
  cases d with
  | nan => cases h
  | inf s => cases h
  | fin s ex fr =>
    simp only [sub, neg, add, signed_not]
    simp [zero]

/-- Subtraction is antisymmetric up to the sign of a zero: `b - a` is finite exactly
when `a - b` is, and then `a - b == -(b - a)`. -/
theorem sub_antisymm (a b : Double) (ha : a.isFinite = true) (hb : b.isFinite = true) :
    (sub b a).isFinite = (sub a b).isFinite ∧
    ((sub a b).isFinite = true → eq (sub a b) (neg (sub b a)) = true) := by
  cases a with
  | nan => cases ha
  | inf s => cases ha
  | fin s ea fa =>
    cases b with
    | nan => cases hb
    | inf t => cases hb
    | fin t eb fb =>
      simp only [sub, neg, add, signed_not, min_comm (expo eb) (expo ea)]
      generalize hA : signed s (mant ea fa * 2 ^ (expo ea - min (expo ea) (expo eb)).toNat) = A
      generalize hB : signed t (mant eb fb * 2 ^ (expo eb - min (expo ea) (expo eb)).toNat) = B
      have hS : B + -A = -(A + -B) := by ring
      rw [hS]
      by_cases h0 : A + -B = 0
      · simp [h0, isFinite, eq, mant]
      · have h1 : -(A + -B) ≠ 0 := by omega
        have h2 : decide (-(A + -B) < 0) = !decide (A + -B < 0) := by
          by_cases hlt : A + -B < 0
          · have : ¬ (-(A + -B) < 0) := by omega
            rw [decide_eq_true hlt, decide_eq_false this]; rfl
          · have : -(A + -B) < 0 := by omega
            rw [decide_eq_false hlt, decide_eq_true this]; rfl
        simp only [h0, h1, if_false, h2, Int.natAbs_neg, roundNE_neg, isFinite_neg, neg_neg]
        refine ⟨trivial, ?_⟩
        intro hf
        generalize roundNE (decide (A + -B < 0)) (A + -B).natAbs (min (expo ea) (expo eb)) = r at hf ⊢
        cases r with
        | nan => cases hf
        | inf u => cases hf
        | fin u ex fr => simp [neg, eq]

end Double

/-! ## Scalars: construction and arithmetic -/

namespace Real

theorem ctor_of_finite (d : Double) (h : d.isFinite = true) :
    ctor d = Except.ok { _value := d } := by
  simp [ctor, isFinite, h]

theorem ctor_of_not_finite (d : Double) (h : d.isFinite = false) :
    ctor d = Except.error Exn.domain_error := by
  simp [ctor, isFinite, h]

theorem ctor_ok_iff (d : Double) (r : Real) :
    ctor d = Except.ok r ↔ d.isFinite = true ∧ r = { _value := d } := by
  cases h : d.isFinite
  · simp [ctor, isFinite, h]
  · simp [ctor, isFinite, h, eq_comm]

theorem ctor_zero : ctor Double.zero = Except.ok zero := rfl

theorem ctor_one : ctor Double.one = Except.ok one := rfl

theorem ctor_epsilon : ctor Double.epsilon = Except.ok epsilon := rfl

theorem opAdd_eq (a b : Real) :
    opAdd a b = if (Double.add a._value b._value).isFinite = true
      then Except.ok { _value := Double.add a._value b._value }
      else Except.error Exn.domain_error := by
  cases h : (Double.add a._value b._value).isFinite <;> simp [opAdd, ctor, isFinite, h]

theorem opSub_eq (a b : Real) :
    opSub a b = if (Double.sub a._value b._value).isFinite = true
      then Except.ok { _value := Double.sub a._value b._value }
      else Except.error Exn.domain_error := by
  cases h : (Double.sub a._value b._value).isFinite <;> simp [opSub, ctor, isFinite, h]

theorem opMul_eq (a b : Real) :
    opMul a b = if (Double.mul a._value b._value).isFinite = true
      then Except.ok { _value := Double.mul a._value b._value }
      else Except.error Exn.domain_error := by
  cases h : (Double.mul a._value b._value).isFinite <;> simp [opMul, ctor, isFinite, h]

theorem opDiv_eq (a b : Real) :
    opDiv a b = if Double.eq b._value Double.zero = true then Except.error Exn.domain_error
      else if (Double.div a._value b._value).isFinite = true
      then Except.ok { _value := Double.div a._value b._value }
      else Except.error Exn.domain_error := by
  cases hz : Double.eq b._value Double.zero <;>
    cases h : (Double.div a._value b._value).isFinite <;>
    simp [opDiv, ctor, isFinite, h, hz]

theorem opAdd_finite {a b r : Real} (h : opAdd a b = Except.ok r) :
    r._value.isFinite = true := by
  rw [opAdd_eq] at h
  split at h
  · cases h; assumption
  · cases h

theorem opSub_finite {a b r : Real} (h : opSub a b = Except.ok r) :
    r._value.isFinite = true := by
  rw [opSub_eq] at h
  split at h
  · cases h; assumption
  · cases h

theorem opMul_finite {a b r : Real} (h : opMul a b = Except.ok r) :
    r._value.isFinite = true := by
  rw [opMul_eq] at h
  split at h
  · cases h; assumption
  · cases h

theorem opDiv_finite {a b r : Real} (h : opDiv a b = Except.ok r) :
    r._value.isFinite = true := by
  rw [opDiv_eq] at h
  split at h
  · cases h
  · split at h
    · cases h; assumption
    · cases h

theorem opAdd_value {a b r : Real} (h : opAdd a b = Except.ok r) :
    r._value = Double.add a._value b._value := by
  rw [opAdd_eq] at h
  split at h
  · cases h; rfl
  · cases h

theorem opSub_value {a b r : Real} (h : opSub a b = Except.ok r) :
    r._value = Double.sub a._value b._value := by
  rw [opSub_eq] at h
  split at h
  · cases h; rfl
  · cases h

theorem opMul_value {a b r : Real} (h : opMul a b = Except.ok r) :
    r._value = Double.mul a._value b._value := by
  rw [opMul_eq] at h
  split at h
  · cases h; rfl
  · cases h

theorem opDiv_value {a b r : Real} (h : opDiv a b = Except.ok r) :
    r._value = Double.div a._value b._value := by
  rw [opDiv_eq] at h
  split at h
  · cases h
  · split at h
    · cases h; rfl
    · cases h

theorem ctor_value {d : Double} {r : Real} (h : ctor d = Except.ok r) : r._value = d := by
  rw [ctor_ok_iff] at h
  rw [h.2]

theorem ctor_finite {d : Double} {r : Real} (h : ctor d = Except.ok r) :
    r._value.isFinite = true := by
  rw [ctor_ok_iff] at h
  rw [h.2]
  exact h.1

theorem obtainable_finite (r : Real) (h : Obtainable r) : r._value.isFinite = true := by
  induction h with
  | ctorDefault => rfl
  | ctor d r hr => exact ctor_finite hr
  | zero => rfl
  | one => rfl
  | epsilon => rfl
  | opAdd a b r _ _ hr _ _ => exact opAdd_finite hr
  | opSub a b r _ _ hr _ _ => exact opSub_finite hr
  | opMul a b r _ _ hr _ _ => exact opMul_finite hr
  | opDiv a b r _ _ hr _ _ => exact opDiv_finite hr

theorem obtainable_of_finite (r : Real) (h : r._value.isFinite = true) : Obtainable r :=
  Obtainable.ctor r._value r (ctor_of_finite r._value h)

end Real

/-- C1: constructing a Scalar from a double `d` throws the domain error exactly when
`d` is not finite, that is when `d` is a NaN or one of the two infinities; otherwise
the construction succeeds and `value()` of the result is `d` itself. -/
theorem C1_ctor_fails_iff_not_finite (d : Double) :
    (Real.ctor d = Except.error Exn.domain_error ↔ d.isFinite = false) ∧
    (d.isFinite = false ↔ d = Double.nan ∨ d = Double.inf false ∨ d = Double.inf true) ∧
    (d.isFinite = true → ∃ r, Real.ctor d = Except.ok r ∧ r.value = d) := by
  refine ⟨?_, ?_, ?_⟩
  · cases h : d.isFinite
    · simp [Real.ctor_of_not_finite d h]
    · simp [Real.ctor_of_finite d h]
  · cases d with
    | nan => simp [Double.isFinite]
    | inf s => cases s <;> simp [Double.isFinite]
    | fin s ex fr => simp [Double.isFinite]
  · intro h
    exact ⟨{ _value := d }, Real.ctor_of_finite d h, rfl⟩

/-- C2: a Scalar division throws the domain error whenever the divisor compares equal
to zero, whatever the dividend; negative zero is such a divisor, and so are
`Scalar(1) / Scalar(0)` and `Scalar(0) / Scalar(0)`.  With a divisor that is not zero the
division either throws because the IEEE quotient is not finite, or returns the Scalar
holding exactly that quotient. -/
theorem C2_division (a b : Real) :
    (Double.eq b._value Double.zero = true →
      Real.opDiv a b = Except.error Exn.domain_error) ∧
    (Double.eq b._value Double.zero = false →
      ((Double.div a._value b._value).isFinite = false ∧
        Real.opDiv a b = Except.error Exn.domain_error) ∨
      ((Double.div a._value b._value).isFinite = true ∧
        Real.opDiv a b = Except.ok { _value := Double.div a._value b._value })) ∧
    Double.eq Double.negZero Double.zero = true ∧
    Real.opDiv a { _value := Double.negZero } = Except.error Exn.domain_error ∧
    Real.opDiv Real.one Real.zero = Except.error Exn.domain_error ∧
    Real.opDiv Real.zero Real.zero = Except.error Exn.domain_error := by
  refine ⟨?_, ?_, by decide, ?_, by decide, by decide⟩
  · intro hz
    simp [Real.opDiv_eq, hz]
  · intro hz
    cases h : (Double.div a._value b._value).isFinite <;> simp [Real.opDiv_eq, hz, h]
  · rw [Real.opDiv_eq]
    have : Double.eq Double.negZero Double.zero = true := by decide
    simp [this]

/-- C3: every Scalar obtained through the public interface (default construction,
construction from a number, `zero()`, `one()`, `epsilon()`, and each result that `+`,
`-`, `*`, `/` return) holds a finite value: `value()` is neither a NaN nor an
infinity. -/
theorem C3_obtainable_is_finite (r : Real) (h : Real.Obtainable r) :
    r.value.isFinite = true ∧ r.value ≠ Double.nan ∧ ∀ s, r.value ≠ Double.inf s := by
  have hfin : r._value.isFinite = true := Real.obtainable_finite r h
  refine ⟨hfin, ?_, ?_⟩
  · intro hn
    simp [Real.value] at hn
    simp [hn, Double.isFinite] at hfin
  · intro s hn
    simp [Real.value] at hn
    simp [hn, Double.isFinite] at hfin

/-- C3 at a concrete Scalar: `(one() + one()) / epsilon()` is obtainable, so finite. -/
theorem C3_obtainable_is_finite_witness :
    (Real.mk (Double.ofBits 0x4340000000000000)).value.isFinite = true ∧
    (Real.mk (Double.ofBits 0x4340000000000000)).value ≠ Double.nan ∧
    ∀ s, (Real.mk (Double.ofBits 0x4340000000000000)).value ≠ Double.inf s :=
  C3_obtainable_is_finite _
    (Real.Obtainable.opDiv (Real.mk (Double.ofBits 0x4000000000000000)) Real.epsilon _
      (Real.Obtainable.opAdd Real.one Real.one _ Real.Obtainable.one Real.Obtainable.one
        (by decide))
      Real.Obtainable.epsilon (by decide))

/-- C4: each of `a + b`, `a - b`, `a * b` on Scalars throws the domain error exactly when
the IEEE result of the operation on the two stored doubles is not finite, and
otherwise returns the Scalar holding exactly that result.  `1.0e308` is a valid
Scalar, and `Scalar(1.0e308) + Scalar(1.0e308)` throws. -/
theorem C4_add_sub_mul (a b : Real) :
    ((Real.opAdd a b = Except.error Exn.domain_error ↔
        (Double.add a._value b._value).isFinite = false) ∧
      ((Double.add a._value b._value).isFinite = true →
        Real.opAdd a b = Except.ok { _value := Double.add a._value b._value })) ∧
    ((Real.opSub a b = Except.error Exn.domain_error ↔
        (Double.sub a._value b._value).isFinite = false) ∧
      ((Double.sub a._value b._value).isFinite = true →
        Real.opSub a b = Except.ok { _value := Double.sub a._value b._value })) ∧
    ((Real.opMul a b = Except.error Exn.domain_error ↔
        (Double.mul a._value b._value).isFinite = false) ∧
      ((Double.mul a._value b._value).isFinite = true →
        Real.opMul a b = Except.ok { _value := Double.mul a._value b._value })) ∧
    Double.ofScientific 1 308 = Double.lit1e308 ∧
    Real.ctor Double.lit1e308 = Except.ok { _value := Double.lit1e308 } ∧
    Real.opAdd { _value := Double.lit1e308 } { _value := Double.lit1e308 }
      = Except.error Exn.domain_error := by
  refine ⟨⟨?_, ?_⟩, ⟨?_, ?_⟩, ⟨?_, ?_⟩, by decide, by decide, by decide⟩
  · cases h : (Double.add a._value b._value).isFinite <;> simp [Real.opAdd_eq, h]
  · intro h; simp [Real.opAdd_eq, h]
  · cases h : (Double.sub a._value b._value).isFinite <;> simp [Real.opSub_eq, h]
  · intro h; simp [Real.opSub_eq, h]
  · cases h : (Double.mul a._value b._value).isFinite <;> simp [Real.opMul_eq, h]
  · intro h; simp [Real.opMul_eq, h]

/-! ## Vector3: the compound assignments -/

namespace Vector3

/-- The four ways `operator+=` can end: it returns with all three sums stored, the unit
tags combined and the cache invalidated, or it throws at the first, second or third
sum and leaves what it had stored so far. -/
theorem opAddAssign_cases (v w : Vector3) :
    (∃ rx ry rz, Real.opAdd v._x w._x = Except.ok rx ∧ Real.opAdd v._y w._y = Except.ok ry ∧
      Real.opAdd v._z w._z = Except.ok rz ∧
      opAddAssign v w = (Except.ok (), InvalidateCache { v with
        _x := rx, _y := ry, _z := rz, _unit := combineAdditiveUnits v._unit w._unit })) ∨
    (∃ e, Real.opAdd v._x w._x = Except.error e ∧ opAddAssign v w = (Except.error e, v)) ∨
    (∃ e rx, Real.opAdd v._x w._x = Except.ok rx ∧ Real.opAdd v._y w._y = Except.error e ∧
      opAddAssign v w = (Except.error e, { v with _x := rx })) ∨
    (∃ e rx ry, Real.opAdd v._x w._x = Except.ok rx ∧ Real.opAdd v._y w._y = Except.ok ry ∧
      Real.opAdd v._z w._z = Except.error e ∧
      opAddAssign v w = (Except.error e, { v with _x := rx, _y := ry })) := by
  unfold opAddAssign
  cases hx : Real.opAdd v._x w._x with
  | error e => simp
  | ok rx =>
    cases hy : Real.opAdd v._y w._y with
    | error e => simp [hy]
    | ok ry =>
      cases hz : Real.opAdd v._z w._z with
      | error e => simp [hy, hz]
      | ok rz => simp [hy, hz]

/-- The four ways `operator-=` can end. -/
theorem opSubAssign_cases (v w : Vector3) :
    (∃ rx ry rz, Real.opSub v._x w._x = Except.ok rx ∧ Real.opSub v._y w._y = Except.ok ry ∧
      Real.opSub v._z w._z = Except.ok rz ∧
      opSubAssign v w = (Except.ok (), InvalidateCache { v with
        _x := rx, _y := ry, _z := rz, _unit := combineAdditiveUnits v._unit w._unit })) ∨
    (∃ e, Real.opSub v._x w._x = Except.error e ∧ opSubAssign v w = (Except.error e, v)) ∨
    (∃ e rx, Real.opSub v._x w._x = Except.ok rx ∧ Real.opSub v._y w._y = Except.error e ∧
      opSubAssign v w = (Except.error e, { v with _x := rx })) ∨
    (∃ e rx ry, Real.opSub v._x w._x = Except.ok rx ∧ Real.opSub v._y w._y = Except.ok ry ∧
      Real.opSub v._z w._z = Except.error e ∧
      opSubAssign v w = (Except.error e, { v with _x := rx, _y := ry })) := by
  unfold opSubAssign
  cases hx : Real.opSub v._x w._x with
  | error e => simp
  | ok rx =>
    cases hy : Real.opSub v._y w._y with
    | error e => simp [hy]
    | ok ry =>
      cases hz : Real.opSub v._z w._z with
      | error e => simp [hy, hz]
      | ok rz => simp [hy, hz]

/-- The four ways `operator*=` can end. -/
theorem opMulAssign_cases (v : Vector3) (s : Real) :
    (∃ rx ry rz, Real.opMul v._x s = Except.ok rx ∧ Real.opMul v._y s = Except.ok ry ∧
      Real.opMul v._z s = Except.ok rz ∧
      opMulAssign v s = (Except.ok (), InvalidateCache { v with
        _x := rx, _y := ry, _z := rz })) ∨
    (∃ e, Real.opMul v._x s = Except.error e ∧ opMulAssign v s = (Except.error e, v)) ∨
    (∃ e rx, Real.opMul v._x s = Except.ok rx ∧ Real.opMul v._y s = Except.error e ∧
      opMulAssign v s = (Except.error e, { v with _x := rx })) ∨
    (∃ e rx ry, Real.opMul v._x s = Except.ok rx ∧ Real.opMul v._y s = Except.ok ry ∧
      Real.opMul v._z s = Except.error e ∧
      opMulAssign v s = (Except.error e, { v with _x := rx, _y := ry })) := by
  unfold opMulAssign
  cases hx : Real.opMul v._x s with
  | error e => simp
  | ok rx =>
    cases hy : Real.opMul v._y s with
    | error e => simp [hy]
    | ok ry =>
      cases hz : Real.opMul v._z s with
      | error e => simp [hy, hz]
      | ok rz => simp [hy, hz]

/-- The four ways `operator/=` can end. -/
theorem opDivAssign_cases (v : Vector3) (s : Real) :
    (∃ rx ry rz, Real.opDiv v._x s = Except.ok rx ∧ Real.opDiv v._y s = Except.ok ry ∧
      Real.opDiv v._z s = Except.ok rz ∧
      opDivAssign v s = (Except.ok (), InvalidateCache { v with
        _x := rx, _y := ry, _z := rz })) ∨
    (∃ e, Real.opDiv v._x s = Except.error e ∧ opDivAssign v s = (Except.error e, v)) ∨
    (∃ e rx, Real.opDiv v._x s = Except.ok rx ∧ Real.opDiv v._y s = Except.error e ∧
      opDivAssign v s = (Except.error e, { v with _x := rx })) ∨
    (∃ e rx ry, Real.opDiv v._x s = Except.ok rx ∧ Real.opDiv v._y s = Except.ok ry ∧
      Real.opDiv v._z s = Except.error e ∧
      opDivAssign v s = (Except.error e, { v with _x := rx, _y := ry })) := by
  unfold opDivAssign
  cases hx : Real.opDiv v._x s with
  | error e => simp
  | ok rx =>
    cases hy : Real.opDiv v._y s with
    | error e => simp [hy]
    | ok ry =>
      cases hz : Real.opDiv v._z s with
      | error e => simp [hy, hz]
      | ok rz => simp [hy, hz]

/-- A compound assignment on a copy returns the copy exactly when it returned. -/
theorem onCopy_ok_iff (p : Except Exn Unit × Vector3) (r : Vector3) :
    onCopy p = Except.ok r ↔ p = (Except.ok (), r) := by
  obtain ⟨res, st⟩ := p
  cases res with
  | error e => simp [onCopy]
  | ok u => simp [onCopy]

/-- With the cache marked invalid, `Magnitude()` returns the freshly computed value. -/
theorem Magnitude_of_invalid (v : Vector3) (h : v._magnitudeCacheValid = false) :
    (Magnitude v).1 = recomputed v := by
  unfold Magnitude recomputed
  simp only [h]
  cases MagnitudeSquared v with
  | error e => simp
  | ok m =>
    cases hc : Real.ctor (Double.sqrt m.value) with
    | error e => simp [hc]
    | ok r => simp [hc]

theorem opAddAssign_unit (a b a1 : Vector3) (h : opAddAssign a b = (Except.ok (), a1)) :
    a1._unit = combineAdditiveUnits a._unit b._unit := by
  rcases opAddAssign_cases a b with ⟨rx, ry, rz, _, _, _, h1⟩ | ⟨e, _, h1⟩ | ⟨e, rx, _, _, h1⟩ |
      ⟨e, rx, ry, _, _, _, h1⟩ <;> rw [h1] at h <;> simp at h
  rw [← h]; rfl

theorem opSubAssign_unit (a b a1 : Vector3) (h : opSubAssign a b = (Except.ok (), a1)) :
    a1._unit = combineAdditiveUnits a._unit b._unit := by
  rcases opSubAssign_cases a b with ⟨rx, ry, rz, _, _, _, h1⟩ | ⟨e, _, h1⟩ | ⟨e, rx, _, _, h1⟩ |
      ⟨e, rx, ry, _, _, _, h1⟩ <;> rw [h1] at h <;> simp at h
  rw [← h]; rfl

end Vector3

/-- C10: when the operation succeeds, the unit tag of `a + b`, of `a - b`, and of `a`
after `a += b` or `a -= b` is the tag of `a` if the two tags are equal as text and the
marker "mixed units" otherwise; "m" with "m" gives "m", "m" with "s" gives
"mixed units". -/
theorem C10_additive_unit_combination (a b : Vector3) :
    (∀ r, Vector3.opAdd a b = Except.ok r →
      r.unit = if a.unit = b.unit then a.unit else "mixed units") ∧
    (∀ r, Vector3.opSub a b = Except.ok r →
      r.unit = if a.unit = b.unit then a.unit else "mixed units") ∧
    (∀ a1, Vector3.opAddAssign a b = (Except.ok (), a1) →
      a1.unit = if a.unit = b.unit then a.unit else "mixed units") ∧
    (∀ a1, Vector3.opSubAssign a b = (Except.ok (), a1) →
      a1.unit = if a.unit = b.unit then a.unit else "mixed units") ∧
    Vector3.combineAdditiveUnits "m" "m" = "m" ∧
    Vector3.combineAdditiveUnits "m" "s" = "mixed units" := by
  refine ⟨?_, ?_, ?_, ?_, by decide, by decide⟩
  · intro r h
    exact Vector3.opAddAssign_unit a b r ((Vector3.onCopy_ok_iff _ r).1 h)
  · intro r h
    exact Vector3.opSubAssign_unit a b r ((Vector3.onCopy_ok_iff _ r).1 h)
  · intro a1 h
    exact Vector3.opAddAssign_unit a b a1 h
  · intro a1 h
    exact Vector3.opSubAssign_unit a b a1 h

/-- C10 at concrete vectors: `(3,4,0)` tagged "m" plus itself is tagged "m", and plus
`(1,2,3)` tagged "s" is tagged "mixed units". -/
theorem C10_additive_unit_combination_witness :
    (∃ r, Vector3.opAdd Example.vMetres Example.vMetres = Except.ok r ∧ r.unit = "m") ∧
    (∃ r, Vector3.opAdd Example.vMetres Example.vSeconds = Except.ok r ∧
      r.unit = "mixed units") :=
  ⟨⟨(Vector3.opAddAssign Example.vMetres Example.vMetres).2, by decide,
    ((C10_additive_unit_combination Example.vMetres Example.vMetres).1 _ (by decide)).trans
      (by decide)⟩,
   ⟨(Vector3.opAddAssign Example.vMetres Example.vSeconds).2, by decide,
    ((C10_additive_unit_combination Example.vMetres Example.vSeconds).1 _ (by decide)).trans
      (by decide)⟩⟩

namespace Vector3

/-- After `InvalidateCache()` the flags are cleared and `Magnitude()` recomputes. -/
theorem InvalidateCache_fresh (v : Vector3) :
    (InvalidateCache v)._magnitudeCacheValid = false ∧
    (InvalidateCache v).isNormalized = false ∧
    (Magnitude (InvalidateCache v)).1 = recomputed (InvalidateCache v) :=
  ⟨rfl, rfl, Magnitude_of_invalid _ rfl⟩

theorem opAddAssign_fresh (v w v1 : Vector3) (h : opAddAssign v w = (Except.ok (), v1)) :
    v1._magnitudeCacheValid = false ∧ v1.isNormalized = false ∧
    (Magnitude v1).1 = recomputed v1 := by
  rcases opAddAssign_cases v w with ⟨rx, ry, rz, _, _, _, h1⟩ | ⟨e, _, h1⟩ | ⟨e, rx, _, _, h1⟩ |
      ⟨e, rx, ry, _, _, _, h1⟩ <;> rw [h1] at h <;> simp at h
  rw [← h]; exact InvalidateCache_fresh _

theorem opSubAssign_fresh (v w v1 : Vector3) (h : opSubAssign v w = (Except.ok (), v1)) :
    v1._magnitudeCacheValid = false ∧ v1.isNormalized = false ∧
    (Magnitude v1).1 = recomputed v1 := by
  rcases opSubAssign_cases v w with ⟨rx, ry, rz, _, _, _, h1⟩ | ⟨e, _, h1⟩ | ⟨e, rx, _, _, h1⟩ |
      ⟨e, rx, ry, _, _, _, h1⟩ <;> rw [h1] at h <;> simp at h
  rw [← h]; exact InvalidateCache_fresh _

theorem opMulAssign_fresh (v : Vector3) (s : Real) (v1 : Vector3)
    (h : opMulAssign v s = (Except.ok (), v1)) :
    v1._magnitudeCacheValid = false ∧ v1.isNormalized = false ∧
    (Magnitude v1).1 = recomputed v1 := by
  rcases opMulAssign_cases v s with ⟨rx, ry, rz, _, _, _, h1⟩ | ⟨e, _, h1⟩ | ⟨e, rx, _, _, h1⟩ |
      ⟨e, rx, ry, _, _, _, h1⟩ <;> rw [h1] at h <;> simp at h
  rw [← h]; exact InvalidateCache_fresh _

theorem opDivAssign_fresh (v : Vector3) (s : Real) (v1 : Vector3)
    (h : opDivAssign v s = (Except.ok (), v1)) :
    v1._magnitudeCacheValid = false ∧ v1.isNormalized = false ∧
    (Magnitude v1).1 = recomputed v1 := by
  rcases opDivAssign_cases v s with ⟨rx, ry, rz, _, _, _, h1⟩ | ⟨e, _, h1⟩ | ⟨e, rx, _, _, h1⟩ |
      ⟨e, rx, ry, _, _, _, h1⟩ <;> rw [h1] at h <;> simp at h
  rw [← h]; exact InvalidateCache_fresh _

end Vector3

/-- C6: whatever the cache state and normalized flag of `v` were, after `setX`, `setY`,
`setZ`, `setComponents`, and after `+=`, `-=`, `*=`, `/=` have returned, the cache
validity flag is cleared, `isNormalized()` is false, and the next `Magnitude()` is the
value computed afresh from the current components, `sqrt(MagnitudeSquared())`. -/
theorem C6_cache_coherence (v w : Vector3) (a b c s : Real) :
    ((Vector3.setX v a)._magnitudeCacheValid = false ∧ (Vector3.setX v a).isNormalized = false ∧
      (Vector3.Magnitude (Vector3.setX v a)).1 = Vector3.recomputed (Vector3.setX v a)) ∧
    ((Vector3.setY v a)._magnitudeCacheValid = false ∧ (Vector3.setY v a).isNormalized = false ∧
      (Vector3.Magnitude (Vector3.setY v a)).1 = Vector3.recomputed (Vector3.setY v a)) ∧
    ((Vector3.setZ v a)._magnitudeCacheValid = false ∧ (Vector3.setZ v a).isNormalized = false ∧
      (Vector3.Magnitude (Vector3.setZ v a)).1 = Vector3.recomputed (Vector3.setZ v a)) ∧
    ((Vector3.setComponents v a b c)._magnitudeCacheValid = false ∧
      (Vector3.setComponents v a b c).isNormalized = false ∧
      (Vector3.Magnitude (Vector3.setComponents v a b c)).1
        = Vector3.recomputed (Vector3.setComponents v a b c)) ∧
    (∀ v1, Vector3.opAddAssign v w = (Except.ok (), v1) →
      v1._magnitudeCacheValid = false ∧ v1.isNormalized = false ∧
      (Vector3.Magnitude v1).1 = Vector3.recomputed v1) ∧
    (∀ v1, Vector3.opSubAssign v w = (Except.ok (), v1) →
      v1._magnitudeCacheValid = false ∧ v1.isNormalized = false ∧
      (Vector3.Magnitude v1).1 = Vector3.recomputed v1) ∧
    (∀ v1, Vector3.opMulAssign v s = (Except.ok (), v1) →
      v1._magnitudeCacheValid = false ∧ v1.isNormalized = false ∧
      (Vector3.Magnitude v1).1 = Vector3.recomputed v1) ∧
    (∀ v1, Vector3.opDivAssign v s = (Except.ok (), v1) →
      v1._magnitudeCacheValid = false ∧ v1.isNormalized = false ∧
      (Vector3.Magnitude v1).1 = Vector3.recomputed v1) :=
  ⟨Vector3.InvalidateCache_fresh _, Vector3.InvalidateCache_fresh _,
   Vector3.InvalidateCache_fresh _, Vector3.InvalidateCache_fresh _,
   Vector3.opAddAssign_fresh v w, Vector3.opSubAssign_fresh v w,
   Vector3.opMulAssign_fresh v s, Vector3.opDivAssign_fresh v s⟩

/-- C7 fails as stated: with `v = (1, 1.0e308, 0)`, whose components are valid Scalars,
`v += v` throws at the second component and leaves `v` with `x = 2`, and `v *= 2` does
the same. -/
theorem C7_counterexample :
    Real.ctor Double.lit1e308 = Except.ok Example.r1e308 ∧
    Vector3.opAddAssign Example.vBig Example.vBig
      = (Except.error Exn.domain_error, { Example.vBig with _x := Example.two }) ∧
    Vector3.opMulAssign Example.vBig Example.two
      = (Except.error Exn.domain_error, { Example.vBig with _x := Example.two }) ∧
    Example.vBig._x = Real.one ∧
    (Vector3.opAddAssign Example.vBig Example.vBig).2._x = Example.two ∧
    Real.opEq Real.one Example.two = false := by
  decide

/-- C7, amended: when `v += w`, `v -= w`, `v *= s` or `v /= s` throws, the unit tag,
the normalized flag and the cache state of `v` are as before the call, and so is every
component from the failing one onwards in the order x, y, z; the components before the
failing one hold their new values.  So `v` is unchanged when the first component's
computation is the one that fails. -/
theorem C7_failed_assignment_keeps_the_rest (v w : Vector3) (s : Real) :
    (∀ e v1, Vector3.opAddAssign v w = (Except.error e, v1) →
      Vector3.LeftPartial v v1 (Real.opAdd v._x w._x) (Real.opAdd v._y w._y)
        (Real.opAdd v._z w._z)) ∧
    (∀ e v1, Vector3.opSubAssign v w = (Except.error e, v1) →
      Vector3.LeftPartial v v1 (Real.opSub v._x w._x) (Real.opSub v._y w._y)
        (Real.opSub v._z w._z)) ∧
    (∀ e v1, Vector3.opMulAssign v s = (Except.error e, v1) →
      Vector3.LeftPartial v v1 (Real.opMul v._x s) (Real.opMul v._y s) (Real.opMul v._z s)) ∧
    (∀ e v1, Vector3.opDivAssign v s = (Except.error e, v1) →
      Vector3.LeftPartial v v1 (Real.opDiv v._x s) (Real.opDiv v._y s) (Real.opDiv v._z s)) := by
  refine ⟨?_, ?_, ?_, ?_⟩
  · intro e v1 h
    rcases Vector3.opAddAssign_cases v w with ⟨rx, ry, rz, _, _, _, h1⟩ | ⟨e1, hx, h1⟩ |
        ⟨e1, rx, hx, hy, h1⟩ | ⟨e1, rx, ry, hx, hy, hz, h1⟩
    · rw [h1] at h; simp at h
    · rw [h1] at h; simp at h; obtain ⟨_, rfl⟩ := h; cases e1
      simp [Vector3.LeftPartial, hx]
    · rw [h1] at h; simp at h; obtain ⟨_, rfl⟩ := h; cases e1
      simp [Vector3.LeftPartial, hx, hy]
    · rw [h1] at h; simp at h; obtain ⟨_, rfl⟩ := h; cases e1
      simp [Vector3.LeftPartial, hx, hy, hz]
  · intro e v1 h
    rcases Vector3.opSubAssign_cases v w with ⟨rx, ry, rz, _, _, _, h1⟩ | ⟨e1, hx, h1⟩ |
        ⟨e1, rx, hx, hy, h1⟩ | ⟨e1, rx, ry, hx, hy, hz, h1⟩
    · rw [h1] at h; simp at h
    · rw [h1] at h; simp at h; obtain ⟨_, rfl⟩ := h; cases e1
      simp [Vector3.LeftPartial, hx]
    · rw [h1] at h; simp at h; obtain ⟨_, rfl⟩ := h; cases e1
      simp [Vector3.LeftPartial, hx, hy]
    · rw [h1] at h; simp at h; obtain ⟨_, rfl⟩ := h; cases e1
      simp [Vector3.LeftPartial, hx, hy, hz]
  · intro e v1 h
    rcases Vector3.opMulAssign_cases v s with ⟨rx, ry, rz, _, _, _, h1⟩ | ⟨e1, hx, h1⟩ |
        ⟨e1, rx, hx, hy, h1⟩ | ⟨e1, rx, ry, hx, hy, hz, h1⟩
    · rw [h1] at h; simp at h
    · rw [h1] at h; simp at h; obtain ⟨_, rfl⟩ := h; cases e1
      simp [Vector3.LeftPartial, hx]
    · rw [h1] at h; simp at h; obtain ⟨_, rfl⟩ := h; cases e1
      simp [Vector3.LeftPartial, hx, hy]
    · rw [h1] at h; simp at h; obtain ⟨_, rfl⟩ := h; cases e1
      simp [Vector3.LeftPartial, hx, hy, hz]
  · intro e v1 h
    rcases Vector3.opDivAssign_cases v s with ⟨rx, ry, rz, _, _, _, h1⟩ | ⟨e1, hx, h1⟩ |
        ⟨e1, rx, hx, hy, h1⟩ | ⟨e1, rx, ry, hx, hy, hz, h1⟩
    · rw [h1] at h; simp at h
    · rw [h1] at h; simp at h; obtain ⟨_, rfl⟩ := h; cases e1
      simp [Vector3.LeftPartial, hx]
    · rw [h1] at h; simp at h; obtain ⟨_, rfl⟩ := h; cases e1
      simp [Vector3.LeftPartial, hx, hy]
    · rw [h1] at h; simp at h; obtain ⟨_, rfl⟩ := h; cases e1
      simp [Vector3.LeftPartial, hx, hy, hz]

/-! ## Vector3: the magnitude cache and the normalized flag -/

namespace Vector3

/-- A successful `MagnitudeSquared()` holds the IEEE value of `x*x + y*y + z*z`. -/
theorem MagnitudeSquared_value (v : Vector3) (ms : Real)
    (h : MagnitudeSquared v = Except.ok ms) :
    ms._value = Double.add
      (Double.add (Double.mul v._x._value v._x._value) (Double.mul v._y._value v._y._value))
      (Double.mul v._z._value v._z._value) := by
  unfold MagnitudeSquared at h
  cases hxx : Real.opMul v._x v._x with
  | error e => simp [hxx, bind, Except.bind] at h
  | ok xx =>
    cases hyy : Real.opMul v._y v._y with
    | error e => simp [hxx, hyy, bind, Except.bind] at h
    | ok yy =>
      cases hs : Real.opAdd xx yy with
      | error e => simp [hxx, hyy, hs, bind, Except.bind] at h
      | ok sm =>
        cases hzz : Real.opMul v._z v._z with
        | error e => simp [hxx, hyy, hs, hzz, bind, Except.bind] at h
        | ok zz =>
          simp [hxx, hyy, hs, hzz, bind, Except.bind] at h
          rw [Real.opAdd_value h, Real.opAdd_value hs, Real.opMul_value hxx,
            Real.opMul_value hyy, Real.opMul_value hzz]

/-- A successful fresh computation holds `sqrt(x*x + y*y + z*z)`. -/
theorem recomputed_value (v : Vector3) (m : Real) (h : recomputed v = Except.ok m) :
    m._value = sqrtSumSquares v := by
  unfold recomputed at h
  cases hms : MagnitudeSquared v with
  | error e => simp [hms] at h
  | ok ms =>
    simp [hms] at h
    rw [Real.ctor_value h, sqrtSumSquares, ← MagnitudeSquared_value v ms hms]
    rfl

/-- The three ways `Magnitude()` can end: the cache is valid and is returned; the
cache is not valid and the fresh computation throws, leaving the receiver as it was;
or the fresh value is stored, the cache marked valid, and the value returned. -/
theorem Magnitude_cases (v : Vector3) :
    (v._magnitudeCacheValid = true ∧ Magnitude v = (Except.ok v._magnitudeCache, v)) ∨
    (v._magnitudeCacheValid = false ∧ ∃ e, recomputed v = Except.error e ∧
      Magnitude v = (Except.error e, v)) ∨
    (v._magnitudeCacheValid = false ∧ ∃ m, recomputed v = Except.ok m ∧
      Magnitude v = (Except.ok m, { v with _magnitudeCache := m, _magnitudeCacheValid := true })) := by
  unfold Magnitude recomputed
  cases hv : v._magnitudeCacheValid with
  | true => simp
  | false =>
    cases hms : MagnitudeSquared v with
    | error e => simp
    | ok ms =>
      cases hc : Real.ctor (Double.sqrt ms.value) with
      | error e => simp [hc]
      | ok m => simp [hc]

/-- The ways `Normalize()` can end, in terms of the receiver `v1` that the call to
`Magnitude()` leaves. -/
theorem Normalize_cases (v : Vector3) :
    (∃ e, (Magnitude v).1 = Except.error e ∧ Normalize v = (Except.error e, (Magnitude v).2)) ∨
    (∃ len, (Magnitude v).1 = Except.ok len ∧ Real.opEq len Real.zero = true ∧
      Normalize v = (Except.ok (), (Magnitude v).2)) ∨
    (∃ len, (Magnitude v).1 = Except.ok len ∧ Real.opEq len Real.zero = false ∧
      ((∃ rx ry rz, Real.opDiv v._x len = Except.ok rx ∧ Real.opDiv v._y len = Except.ok ry ∧
          Real.opDiv v._z len = Except.ok rz ∧
          Normalize v = (Except.ok (), { (Magnitude v).2 with
            _x := rx, _y := ry, _z := rz, _normalized := true,
            _magnitudeCache := Real.one, _magnitudeCacheValid := true })) ∨
        (∃ e, Real.opDiv v._x len = Except.error e ∧
          Normalize v = (Except.error e, (Magnitude v).2)) ∨
        (∃ e rx, Real.opDiv v._x len = Except.ok rx ∧ Real.opDiv v._y len = Except.error e ∧
          Normalize v = (Except.error e, { (Magnitude v).2 with _x := rx })) ∨
        (∃ e rx ry, Real.opDiv v._x len = Except.ok rx ∧ Real.opDiv v._y len = Except.ok ry ∧
          Real.opDiv v._z len = Except.error e ∧
          Normalize v = (Except.error e, { (Magnitude v).2 with _x := rx, _y := ry })))) := by
  unfold Normalize
  rcases Magnitude_cases v with ⟨_, hm⟩ | ⟨_, e, _, hm⟩ | ⟨_, m, _, hm⟩
  · rw [hm]
    cases hz : Real.opEq v._magnitudeCache Real.zero with
    | true => simp [hz]
    | false =>
      cases hx : Real.opDiv v._x v._magnitudeCache with
      | error e => simp [hz, hx]
      | ok rx =>
        cases hy : Real.opDiv v._y v._magnitudeCache with
        | error e => simp [hz, hx, hy]
        | ok ry =>
          cases hzz : Real.opDiv v._z v._magnitudeCache with
          | error e => simp [hz, hx, hy, hzz]
          | ok rz => simp [hz, hx, hy, hzz]
  · rw [hm]; simp
  · rw [hm]
    cases hz : Real.opEq m Real.zero with
    | true => simp [hz]
    | false =>
      cases hx : Real.opDiv v._x m with
      | error e => simp [hz, hx]
      | ok rx =>
        cases hy : Real.opDiv v._y m with
        | error e => simp [hz, hx, hy]
        | ok ry =>
          cases hzz : Real.opDiv v._z m with
          | error e => simp [hz, hx, hy, hzz]
          | ok rz => simp [hz, hx, hy, hzz]

/-- The ways `Normalized()` can end. -/
theorem Normalized_cases (v : Vector3) :
    (Normalized v).2 = (Magnitude v).2 ∧
    ((∃ e, (Magnitude v).1 = Except.error e ∧ (Normalized v).1 = Except.error e) ∨
    (∃ len, (Magnitude v).1 = Except.ok len ∧ Real.opEq len Real.zero = true ∧
      (Normalized v).1 = Except.ok (Magnitude v).2) ∨
    (∃ len, (Magnitude v).1 = Except.ok len ∧ Real.opEq len Real.zero = false ∧
      ((∃ rx ry rz, Real.opDiv v._x len = Except.ok rx ∧ Real.opDiv v._y len = Except.ok ry ∧
          Real.opDiv v._z len = Except.ok rz ∧
          (Normalized v).1 = Except.ok { ctor rx ry rz with
            _normalized := true, _unit := v._unit,
            _magnitudeCache := Real.one, _magnitudeCacheValid := true }) ∨
        ((Real.opDiv v._x len = Except.error Exn.domain_error ∨
          Real.opDiv v._y len = Except.error Exn.domain_error ∨
          Real.opDiv v._z len = Except.error Exn.domain_error) ∧
          (Normalized v).1 = Except.error Exn.domain_error)))) := by
  unfold Normalized
  rcases Magnitude_cases v with ⟨_, hm⟩ | ⟨_, e, _, hm⟩ | ⟨_, m, _, hm⟩
  · rw [hm]
    cases hz : Real.opEq v._magnitudeCache Real.zero with
    | true => simp [hz]
    | false =>
      cases hx : Real.opDiv v._x v._magnitudeCache with
      | error e => cases e; simp [hz, hx]
      | ok rx =>
        cases hy : Real.opDiv v._y v._magnitudeCache with
        | error e => cases e; simp [hz, hx, hy]
        | ok ry =>
          cases hzz : Real.opDiv v._z v._magnitudeCache with
          | error e => cases e; simp [hz, hx, hy, hzz]
          | ok rz => simp [hz, hx, hy, hzz]
  · rw [hm]; simp
  · rw [hm]
    cases hz : Real.opEq m Real.zero with
    | true => simp [hz]
    | false =>
      cases hx : Real.opDiv v._x m with
      | error e => cases e; simp [hz, hx]
      | ok rx =>
        cases hy : Real.opDiv v._y m with
        | error e => cases e; simp [hz, hx, hy]
        | ok ry =>
          cases hzz : Real.opDiv v._z m with
          | error e => cases e; simp [hz, hx, hy, hzz]
          | ok rz => simp [hz, hx, hy, hzz]

/-- A sequence of `Real` operations returns exactly when each step does. -/
theorem bind_ok {α β : Type} (x : Except Exn α) (f : α → Except Exn β) (r : β) :
    (x >>= f) = Except.ok r ↔ ∃ a, x = Except.ok a ∧ f a = Except.ok r := by
  cases x <;> simp [bind, Except.bind]

/-- A cross product that returned is a freshly constructed vector with finite
components. -/
theorem Cross_fresh (a b r : Vector3) (h : Cross a b = Except.ok r) :
    r._normalized = false ∧ r._magnitudeCacheValid = false ∧ r._magnitudeCache = Real.zero ∧
    r._x._value.isFinite = true ∧ r._y._value.isFinite = true ∧
    r._z._value.isFinite = true := by
  simp only [Cross, bind_ok] at h
  obtain ⟨yz, _, zy, _, cx, hcx, zx, _, xz, _, cy, hcy, xy, _, yx, _, cz, hcz, h⟩ := h
  simp [pure, Except.pure] at h
  subst h
  exact ⟨rfl, rfl, rfl, Real.opSub_finite hcx, Real.opSub_finite hcy, Real.opSub_finite hcz⟩

theorem NormalizedInv_InvalidateCache (v : Vector3)
    (fx : v._x._value.isFinite = true) (fy : v._y._value.isFinite = true)
    (fz : v._z._value.isFinite = true) : NormalizedInv (InvalidateCache v) :=
  ⟨by simp [InvalidateCache], fx, fy, fz, rfl⟩

theorem NormalizedInv_Magnitude (v : Vector3) (h : NormalizedInv v) :
    NormalizedInv (Magnitude v).2 := by
  obtain ⟨hn, fx, fy, fz, fc⟩ := h
  rcases Magnitude_cases v with ⟨_, hm⟩ | ⟨_, e, _, hm⟩ | ⟨hv, m, hr, hm⟩ <;> rw [hm]
  · exact ⟨hn, fx, fy, fz, fc⟩
  · exact ⟨hn, fx, fy, fz, fc⟩
  · refine ⟨?_, fx, fy, fz, ?_⟩
    · intro hnorm
      have := (hn hnorm).1
      rw [hv] at this
      cases this
    · unfold recomputed at hr
      cases hms : MagnitudeSquared v with
      | error e => simp [hms] at hr
      | ok ms =>
        simp [hms] at hr
        exact Real.ctor_finite hr

theorem NormalizedInv_opAddAssign (v w : Vector3) (h : NormalizedInv v) :
    NormalizedInv (opAddAssign v w).2 := by
  obtain ⟨hn, fx, fy, fz, fc⟩ := h
  rcases opAddAssign_cases v w with ⟨rx, ry, rz, hx, hy, hz, h1⟩ | ⟨e, hx, h1⟩ |
      ⟨e, rx, hx, hy, h1⟩ | ⟨e, rx, ry, hx, hy, hz, h1⟩ <;> rw [h1]
  · exact NormalizedInv_InvalidateCache _ (Real.opAdd_finite hx) (Real.opAdd_finite hy)
      (Real.opAdd_finite hz)
  · exact ⟨hn, fx, fy, fz, fc⟩
  · exact ⟨hn, Real.opAdd_finite hx, fy, fz, fc⟩
  · exact ⟨hn, Real.opAdd_finite hx, Real.opAdd_finite hy, fz, fc⟩

theorem NormalizedInv_opSubAssign (v w : Vector3) (h : NormalizedInv v) :
    NormalizedInv (opSubAssign v w).2 := by
  obtain ⟨hn, fx, fy, fz, fc⟩ := h
  rcases opSubAssign_cases v w with ⟨rx, ry, rz, hx, hy, hz, h1⟩ | ⟨e, hx, h1⟩ |
      ⟨e, rx, hx, hy, h1⟩ | ⟨e, rx, ry, hx, hy, hz, h1⟩ <;> rw [h1]
  · exact NormalizedInv_InvalidateCache _ (Real.opSub_finite hx) (Real.opSub_finite hy)
      (Real.opSub_finite hz)
  · exact ⟨hn, fx, fy, fz, fc⟩
  · exact ⟨hn, Real.opSub_finite hx, fy, fz, fc⟩
  · exact ⟨hn, Real.opSub_finite hx, Real.opSub_finite hy, fz, fc⟩

theorem NormalizedInv_opMulAssign (v : Vector3) (s : Real) (h : NormalizedInv v) :
    NormalizedInv (opMulAssign v s).2 := by
  obtain ⟨hn, fx, fy, fz, fc⟩ := h
  rcases opMulAssign_cases v s with ⟨rx, ry, rz, hx, hy, hz, h1⟩ | ⟨e, hx, h1⟩ |
      ⟨e, rx, hx, hy, h1⟩ | ⟨e, rx, ry, hx, hy, hz, h1⟩ <;> rw [h1]
  · exact NormalizedInv_InvalidateCache _ (Real.opMul_finite hx) (Real.opMul_finite hy)
      (Real.opMul_finite hz)
  · exact ⟨hn, fx, fy, fz, fc⟩
  · exact ⟨hn, Real.opMul_finite hx, fy, fz, fc⟩
  · exact ⟨hn, Real.opMul_finite hx, Real.opMul_finite hy, fz, fc⟩

theorem NormalizedInv_opDivAssign (v : Vector3) (s : Real) (h : NormalizedInv v) :
    NormalizedInv (opDivAssign v s).2 := by
  obtain ⟨hn, fx, fy, fz, fc⟩ := h
  rcases opDivAssign_cases v s with ⟨rx, ry, rz, hx, hy, hz, h1⟩ | ⟨e, hx, h1⟩ |
      ⟨e, rx, hx, hy, h1⟩ | ⟨e, rx, ry, hx, hy, hz, h1⟩ <;> rw [h1]
  · exact NormalizedInv_InvalidateCache _ (Real.opDiv_finite hx) (Real.opDiv_finite hy)
      (Real.opDiv_finite hz)
  · exact ⟨hn, fx, fy, fz, fc⟩
  · exact ⟨hn, Real.opDiv_finite hx, fy, fz, fc⟩
  · exact ⟨hn, Real.opDiv_finite hx, Real.opDiv_finite hy, fz, fc⟩

theorem NormalizedInv_Normalize (v : Vector3) (h : NormalizedInv v) :
    NormalizedInv (Normalize v).2 := by
  obtain ⟨hn, fx, fy, fz, fc⟩ := NormalizedInv_Magnitude v h
  rcases Normalize_cases v with ⟨e, _, h1⟩ | ⟨len, _, _, h1⟩ |
      ⟨len, _, _, ⟨rx, ry, rz, hx, hy, hz, h1⟩ | ⟨e, hx, h1⟩ | ⟨e, rx, hx, hy, h1⟩ |
        ⟨e, rx, ry, hx, hy, hz, h1⟩⟩ <;> rw [h1]
  · exact ⟨hn, fx, fy, fz, fc⟩
  · exact ⟨hn, fx, fy, fz, fc⟩
  · exact ⟨fun _ => ⟨rfl, rfl⟩, Real.opDiv_finite hx, Real.opDiv_finite hy,
      Real.opDiv_finite hz, rfl⟩
  · exact ⟨hn, fx, fy, fz, fc⟩
  · exact ⟨hn, Real.opDiv_finite hx, fy, fz, fc⟩
  · exact ⟨hn, Real.opDiv_finite hx, Real.opDiv_finite hy, fz, fc⟩

theorem NormalizedInv_Normalized (v r : Vector3) (h : NormalizedInv v)
    (hr : (Normalized v).1 = Except.ok r) : NormalizedInv r := by
  have hm := NormalizedInv_Magnitude v h
  rcases (Normalized_cases v).2 with ⟨e, _, h1⟩ | ⟨len, _, _, h1⟩ |
      ⟨len, _, _, ⟨rx, ry, rz, hx, hy, hz, h1⟩ | ⟨_, h1⟩⟩ <;> rw [h1] at hr
  · cases hr
  · cases hr; exact hm
  · cases hr
    exact ⟨fun _ => ⟨rfl, rfl⟩, Real.opDiv_finite hx, Real.opDiv_finite hy,
      Real.opDiv_finite hz, rfl⟩
  · cases hr

/-- Every reachable state, the states left behind by a call that threw included,
satisfies the invariant of the normalized flag and has finite components. -/
theorem reach_NormalizedInv (v : Vector3) (h : Reach true v) : NormalizedInv v := by
  induction h with
  | ctorDefault => exact ⟨by simp [ctorDefault], rfl, rfl, rfl, rfl⟩
  | ctor x y z hx hy hz =>
    exact ⟨by simp [ctor], Real.obtainable_finite x hx, Real.obtainable_finite y hy,
      Real.obtainable_finite z hz, rfl⟩
  | setX v x _ hx ih =>
    exact NormalizedInv_InvalidateCache _ (Real.obtainable_finite x hx) ih.2.2.1 ih.2.2.2.1
  | setY v y _ hy ih =>
    exact NormalizedInv_InvalidateCache _ ih.2.1 (Real.obtainable_finite y hy) ih.2.2.2.1
  | setZ v z _ hz ih =>
    exact NormalizedInv_InvalidateCache _ ih.2.1 ih.2.2.1 (Real.obtainable_finite z hz)
  | setComponents v x y z _ hx hy hz ih =>
    exact NormalizedInv_InvalidateCache _ (Real.obtainable_finite x hx)
      (Real.obtainable_finite y hy) (Real.obtainable_finite z hz)
  | setUnit v u _ ih => exact ih
  | InvalidateCache v _ ih => exact NormalizedInv_InvalidateCache _ ih.2.1 ih.2.2.1 ih.2.2.2.1
  | Magnitude v _ ih => exact NormalizedInv_Magnitude v ih
  | NormalizedReceiver v _ ih =>
    rw [(Normalized_cases v).1]
    exact NormalizedInv_Magnitude v ih
  | Normalized v r _ hr ih => exact NormalizedInv_Normalized v r ih hr
  | Normalize v _ _ ih => exact NormalizedInv_Normalize v ih
  | Cross a b r _ _ hr _ _ =>
    obtain ⟨h1, h2, h3, h4, h5, h6⟩ := Cross_fresh a b r hr
    exact ⟨by simp [h1], h4, h5, h6, by rw [h3]; rfl⟩
  | opNeg v r _ hr ih =>
    unfold opNeg at hr
    simp only [Real.ctor_of_finite Double.negOne rfl] at hr
    rw [onCopy_ok_iff] at hr
    have := NormalizedInv_opMulAssign v { _value := Double.negOne } ih
    rw [hr] at this
    exact this
  | opAddAssign v w _ _ _ ih _ => exact NormalizedInv_opAddAssign v w ih
  | opSubAssign v w _ _ _ ih _ => exact NormalizedInv_opSubAssign v w ih
  | opMulAssign v s _ _ _ ih => exact NormalizedInv_opMulAssign v s ih
  | opDivAssign v s _ _ _ ih => exact NormalizedInv_opDivAssign v s ih
  | opAdd a b r _ _ hr ih _ =>
    have := NormalizedInv_opAddAssign a b ih
    rw [(onCopy_ok_iff _ r).1 hr] at this
    exact this
  | opSub a b r _ _ hr ih _ =>
    have := NormalizedInv_opSubAssign a b ih
    rw [(onCopy_ok_iff _ r).1 hr] at this
    exact this
  | opMul v s r _ _ hr ih =>
    have := NormalizedInv_opMulAssign v s ih
    rw [(onCopy_ok_iff _ r).1 hr] at this
    exact this
  | opDiv v s r _ _ hr ih =>
    have := NormalizedInv_opDivAssign v s ih
    rw [(onCopy_ok_iff _ r).1 hr] at this
    exact this
  | opMulLeft s v r _ _ hr ih =>
    have := NormalizedInv_opMulAssign v s ih
    rw [(onCopy_ok_iff _ r).1 hr] at this
    exact this

theorem CacheInv_of_invalid (v : Vector3) (h : v._magnitudeCacheValid = false) :
    CacheInv v := by
  intro hv
  rw [h] at hv
  cases hv

theorem CacheInv_Magnitude (v : Vector3) (h : CacheInv v) : CacheInv (Magnitude v).2 := by
  rcases Magnitude_cases v with ⟨_, hm⟩ | ⟨_, e, _, hm⟩ | ⟨_, m, hr, hm⟩ <;> rw [hm]
  · exact h
  · exact h
  · intro _
    exact Or.inl (recomputed_value v m hr)

theorem CacheInv_Normalized (v r : Vector3) (h : CacheInv v)
    (hr : (Normalized v).1 = Except.ok r) : CacheInv r := by
  have hm := CacheInv_Magnitude v h
  rcases (Normalized_cases v).2 with ⟨e, _, h1⟩ | ⟨len, _, _, h1⟩ |
      ⟨len, _, _, ⟨rx, ry, rz, hx, hy, hz, h1⟩ | ⟨_, h1⟩⟩ <;> rw [h1] at hr
  · cases hr
  · cases hr; exact hm
  · cases hr
    exact fun _ => Or.inr ⟨rfl, rfl⟩
  · cases hr

theorem CacheInv_Normalize (v : Vector3) (h : CacheInv v)
    (hr : (Normalize v).1 = Except.ok ()) : CacheInv (Normalize v).2 := by
  have hm := CacheInv_Magnitude v h
  rcases Normalize_cases v with ⟨e, _, h1⟩ | ⟨len, _, _, h1⟩ |
      ⟨len, _, _, ⟨rx, ry, rz, hx, hy, hz, h1⟩ | ⟨e, hx, h1⟩ | ⟨e, rx, hx, hy, h1⟩ |
        ⟨e, rx, ry, hx, hy, hz, h1⟩⟩ <;> rw [h1] at hr ⊢
  · cases hr
  · exact hm
  · exact fun _ => Or.inr ⟨rfl, rfl⟩
  · cases hr
  · cases hr
  · cases hr

/-- A state reached without a throwing compound assignment or `Normalize()` is a
reachable state. -/
theorem Reach.mono (v : Vector3) (h : Reach false v) : Reach true v := by
  induction h with
  | ctorDefault => exact Reach.ctorDefault
  | ctor x y z hx hy hz => exact Reach.ctor x y z hx hy hz
  | setX v x _ hx ih => exact Reach.setX v x ih hx
  | setY v y _ hy ih => exact Reach.setY v y ih hy
  | setZ v z _ hz ih => exact Reach.setZ v z ih hz
  | setComponents v x y z _ hx hy hz ih => exact Reach.setComponents v x y z ih hx hy hz
  | setUnit v u _ ih => exact Reach.setUnit v u ih
  | InvalidateCache v _ ih => exact Reach.InvalidateCache v ih
  | Magnitude v _ ih => exact Reach.Magnitude v ih
  | NormalizedReceiver v _ ih => exact Reach.NormalizedReceiver v ih
  | Normalized v r _ hr ih => exact Reach.Normalized v r ih hr
  | Normalize v _ _ ih => exact Reach.Normalize v ih (Or.inl rfl)
  | Cross a b r _ _ hr iha ihb => exact Reach.Cross a b r iha ihb hr
  | opNeg v r _ hr ih => exact Reach.opNeg v r ih hr
  | opAddAssign v w _ _ _ ihv ihw => exact Reach.opAddAssign v w ihv ihw (Or.inl rfl)
  | opSubAssign v w _ _ _ ihv ihw => exact Reach.opSubAssign v w ihv ihw (Or.inl rfl)
  | opMulAssign v s _ hs _ ih => exact Reach.opMulAssign v s ih hs (Or.inl rfl)
  | opDivAssign v s _ hs _ ih => exact Reach.opDivAssign v s ih hs (Or.inl rfl)
  | opAdd a b r _ _ hr iha ihb => exact Reach.opAdd a b r iha ihb hr
  | opSub a b r _ _ hr iha ihb => exact Reach.opSub a b r iha ihb hr
  | opMul v s r _ hs hr ih => exact Reach.opMul v s r ih hs hr
  | opDiv v s r _ hs hr ih => exact Reach.opDiv v s r ih hs hr
  | opMulLeft s v r _ hs hr ih => exact Reach.opMulLeft s v r ih hs hr

/-- Every state reached without a throwing compound assignment or `Normalize()`
satisfies the invariant of the magnitude cache. -/
theorem reach_CacheInv (v : Vector3) (h : Reach false v) : CacheInv v := by
  induction h with
  | ctorDefault => exact CacheInv_of_invalid _ rfl
  | ctor x y z _ _ _ => exact CacheInv_of_invalid _ rfl
  | setX v x _ _ _ => exact CacheInv_of_invalid _ rfl
  | setY v y _ _ _ => exact CacheInv_of_invalid _ rfl
  | setZ v z _ _ _ => exact CacheInv_of_invalid _ rfl
  | setComponents v x y z _ _ _ _ _ => exact CacheInv_of_invalid _ rfl
  | setUnit v u _ ih => exact ih
  | InvalidateCache v _ _ => exact CacheInv_of_invalid _ rfl
  | Magnitude v _ ih => exact CacheInv_Magnitude v ih
  | NormalizedReceiver v _ ih =>
    rw [(Normalized_cases v).1]
    exact CacheInv_Magnitude v ih
  | Normalized v r _ hr ih => exact CacheInv_Normalized v r ih hr
  | Normalize v _ hr ih =>
    rcases hr with hr | hr
    · cases hr
    · exact CacheInv_Normalize v ih hr
  | Cross a b r _ _ hr _ _ => exact CacheInv_of_invalid _ (Cross_fresh a b r hr).2.1
  | opNeg v r _ hr _ =>
    unfold opNeg at hr
    simp only [Real.ctor_of_finite Double.negOne rfl] at hr
    rw [onCopy_ok_iff] at hr
    exact CacheInv_of_invalid _ (opMulAssign_fresh v _ r hr).1
  | opAddAssign v w _ _ hr _ _ =>
    rcases hr with hr | hr
    · cases hr
    · exact CacheInv_of_invalid _ (opAddAssign_fresh v w _ (Prod.ext hr rfl)).1
  | opSubAssign v w _ _ hr _ _ =>
    rcases hr with hr | hr
    · cases hr
    · exact CacheInv_of_invalid _ (opSubAssign_fresh v w _ (Prod.ext hr rfl)).1
  | opMulAssign v s _ _ hr _ =>
    rcases hr with hr | hr
    · cases hr
    · exact CacheInv_of_invalid _ (opMulAssign_fresh v s _ (Prod.ext hr rfl)).1
  | opDivAssign v s _ _ hr _ =>
    rcases hr with hr | hr
    · cases hr
    · exact CacheInv_of_invalid _ (opDivAssign_fresh v s _ (Prod.ext hr rfl)).1
  | opAdd a b r _ _ hr _ _ =>
    exact CacheInv_of_invalid _ (opAddAssign_fresh a b r ((onCopy_ok_iff _ r).1 hr)).1
  | opSub a b r _ _ hr _ _ =>
    exact CacheInv_of_invalid _ (opSubAssign_fresh a b r ((onCopy_ok_iff _ r).1 hr)).1
  | opMul v s r _ _ hr _ =>
    exact CacheInv_of_invalid _ (opMulAssign_fresh v s r ((onCopy_ok_iff _ r).1 hr)).1
  | opDiv v s r _ _ hr _ =>
    exact CacheInv_of_invalid _ (opDivAssign_fresh v s r ((onCopy_ok_iff _ r).1 hr)).1
  | opMulLeft s v r _ _ hr _ =>
    exact CacheInv_of_invalid _ (opMulAssign_fresh v s r ((onCopy_ok_iff _ r).1 hr)).1

/-- The call `Magnitude()` writes nothing but the cache. -/
theorem Magnitude_frame (v : Vector3) :
    (Magnitude v).2._x = v._x ∧ (Magnitude v).2._y = v._y ∧ (Magnitude v).2._z = v._z ∧
    (Magnitude v).2._unit = v._unit ∧ (Magnitude v).2._normalized = v._normalized := by
  rcases Magnitude_cases v with ⟨_, hm⟩ | ⟨_, e, _, hm⟩ | ⟨_, m, _, hm⟩ <;> rw [hm] <;>
    exact ⟨rfl, rfl, rfl, rfl, rfl⟩

/-- After a `Magnitude()` that returned, the cache is valid and holds the value
returned. -/
theorem Magnitude_ok (v : Vector3) (len : Real) (h : (Magnitude v).1 = Except.ok len) :
    (Magnitude v).2._magnitudeCache = len ∧ (Magnitude v).2._magnitudeCacheValid = true := by
  rcases Magnitude_cases v with ⟨hv, hm⟩ | ⟨_, e, _, hm⟩ | ⟨_, m, _, hm⟩ <;> rw [hm] at h ⊢
  · cases h; exact ⟨rfl, hv⟩
  · cases h
  · cases h; exact ⟨rfl, rfl⟩

end Vector3

/-- C5 fails as stated.  Without any call that throws: `Vector3(1,1,0).Normalized()` has
its cache marked valid and holding one, while `sqrt(x*x + y*y + z*z)` of its components
is `0.9999999999999999` (bits `0x3FEFFFFFFFFFFFFF`), which does not compare equal to
one.  With a call that throws: after `v = Vector3(3,4,0)`, `v.Magnitude()` and a
`v *= Real(5.0e307)` that throws at the second component, the cache is still marked
valid and holds five, while `x` is `1.5e308` and `sqrt(x*x + y*y + z*z)` is infinite. -/
theorem C5_counterexample :
    (∃ r, (Vector3.Normalized Example.vDiagonal).1 = Except.ok r ∧
      Vector3.Reach true r ∧ r._magnitudeCacheValid = true ∧
      r._magnitudeCache = Real.one ∧
      Vector3.sqrtSumSquares r = Double.ofBits 0x3FEFFFFFFFFFFFFF ∧
      Double.eq r._magnitudeCache.value (Vector3.sqrtSumSquares r) = false) ∧
    (Vector3.opMulAssign (Vector3.Magnitude Example.v340).2 Example.r5e307).1
        = Except.error Exn.domain_error ∧
      Vector3.Reach true
        (Vector3.opMulAssign (Vector3.Magnitude Example.v340).2 Example.r5e307).2 ∧
      (Vector3.opMulAssign (Vector3.Magnitude Example.v340).2
        Example.r5e307).2._magnitudeCacheValid = true ∧
      (Vector3.opMulAssign (Vector3.Magnitude Example.v340).2
        Example.r5e307).2._magnitudeCache = Example.five ∧
      Vector3.sqrtSumSquares
        (Vector3.opMulAssign (Vector3.Magnitude Example.v340).2 Example.r5e307).2
        = Double.inf false := by
  have h340 : Vector3.Reach true Example.v340 :=
    Vector3.Reach.ctor _ _ _ (Real.obtainable_of_finite _ rfl)
      (Real.obtainable_of_finite _ rfl) Real.Obtainable.zero
  have hdiag : Vector3.Reach true Example.vDiagonal :=
    Vector3.Reach.ctor _ _ _ Real.Obtainable.one Real.Obtainable.one Real.Obtainable.zero
  exact ⟨⟨Example.vDiagonalUnit, by decide, Vector3.Reach.Normalized _ _ hdiag (by decide),
      by decide, by decide, by decide, by decide⟩,
    by decide,
    Vector3.Reach.opMulAssign _ _ (Vector3.Reach.Magnitude _ h340)
      (Real.obtainable_of_finite _ rfl) (Or.inl rfl),
    by decide, by decide, by decide⟩

/-- C5, amended: in every state reached through the public operations, the receivers
that a throwing compound assignment or `Normalize()` leaves partly reassigned apart, if
the cache validity flag is set then the cached magnitude is `sqrt(x*x + y*y + z*z)` of
the current components, or the vector is marked normalized and the cached magnitude is
exactly Scalar one. -/
theorem C5_valid_cache_is_current_or_one (v : Vector3) (h : Vector3.Reach false v)
    (hv : v._magnitudeCacheValid = true) :
    v._magnitudeCache.value = Vector3.sqrtSumSquares v ∨
    (v.isNormalized = true ∧ v._magnitudeCache = Real.one) :=
  Vector3.reach_CacheInv v h hv

/-- C5, amended, at `Vector3(3,4,0)` after `Magnitude()`: the cache is valid and holds
five, which is `sqrt(3*3 + 4*4 + 0*0)`. -/
theorem C5_valid_cache_is_current_or_one_witness :
    Vector3.Reach false (Vector3.Magnitude Example.v340).2 ∧
    (Vector3.Magnitude Example.v340).2._magnitudeCacheValid = true ∧
    (Vector3.Magnitude Example.v340).2._magnitudeCache = Example.five ∧
    ((Vector3.Magnitude Example.v340).2._magnitudeCache.value
        = Vector3.sqrtSumSquares (Vector3.Magnitude Example.v340).2 ∨
      ((Vector3.Magnitude Example.v340).2.isNormalized = true ∧
        (Vector3.Magnitude Example.v340).2._magnitudeCache = Real.one)) :=
  ⟨Vector3.Reach.Magnitude _ (Vector3.Reach.ctor _ _ _ (Real.obtainable_of_finite _ rfl)
      (Real.obtainable_of_finite _ rfl) Real.Obtainable.zero),
    by decide, by decide,
    C5_valid_cache_is_current_or_one _
      (Vector3.Reach.Magnitude _ (Vector3.Reach.ctor _ _ _ (Real.obtainable_of_finite _ rfl)
        (Real.obtainable_of_finite _ rfl) Real.Obtainable.zero))
      (by decide)⟩

/-- C9: for every reachable vector `v` (states left behind by a call that threw
included) whose `Magnitude()` returns a Scalar that compares equal to zero,
`v.Normalized()` returns a vector with the components and unit tag of `v`, equal to `v`
under `operator==`, and not marked normalized; and `v.Normalize()` returns without
throwing and leaves the components and unit tag of `v` unchanged and `isNormalized()`
false. -/
theorem C9_zero_length_normalization (v : Vector3) (h : Vector3.Reach true v) (len : Real)
    (hm : (Vector3.Magnitude v).1 = Except.ok len)
    (hz : Real.opEq len Real.zero = true) :
    (∃ r, (Vector3.Normalized v).1 = Except.ok r ∧
      r.x = v.x ∧ r.y = v.y ∧ r.z = v.z ∧ r.unit = v.unit ∧
      Vector3.opEq r v = true ∧ r.isNormalized = false) ∧
    ((Vector3.Normalize v).1 = Except.ok () ∧
      (Vector3.Normalize v).2.x = v.x ∧ (Vector3.Normalize v).2.y = v.y ∧
      (Vector3.Normalize v).2.z = v.z ∧ (Vector3.Normalize v).2.unit = v.unit ∧
      (Vector3.Normalize v).2.isNormalized = false) := by
  obtain ⟨fx, fy, fz, fu, fn⟩ := Vector3.Magnitude_frame v
  obtain ⟨hc, hvalid⟩ := Vector3.Magnitude_ok v len hm
  obtain ⟨hn, hfx, hfy, hfz, _⟩ :=
    Vector3.NormalizedInv_Magnitude v (Vector3.reach_NormalizedInv v h)
  have hnot : (Vector3.Magnitude v).2._normalized = false := by
    cases hnorm : (Vector3.Magnitude v).2._normalized with
    | false => rfl
    | true =>
      have h1 := (hn hnorm).2
      rw [hc] at h1
      rw [h1] at hz
      exact absurd hz (by decide)
  constructor
  · rcases (Vector3.Normalized_cases v).2 with ⟨e, he, _⟩ | ⟨len1, _, _, h1⟩ |
        ⟨len1, hl, hnz, _⟩
    · rw [he] at hm; cases hm
    · refine ⟨(Vector3.Magnitude v).2, h1, fx, fy, fz, fu, ?_, hnot⟩
      simp only [Vector3.opEq, Real.opEq, fx, fy, fz, fu]
      rw [fx] at hfx; rw [fy] at hfy; rw [fz] at hfz
      simp [Double.eq_self_of_finite _ hfx, Double.eq_self_of_finite _ hfy,
        Double.eq_self_of_finite _ hfz]
    · rw [hl] at hm; cases hm
      rw [hz] at hnz; cases hnz
  · rcases Vector3.Normalize_cases v with ⟨e, he, _⟩ | ⟨len1, _, _, h1⟩ | ⟨len1, hl, hnz, _⟩
    · rw [he] at hm; cases hm
    · rw [h1]
      exact ⟨rfl, fx, fy, fz, fu, hnot⟩
    · rw [hl] at hm; cases hm
      rw [hz] at hnz; cases hnz

/-- C9 at `Vector3(0,0,0)`: its magnitude is zero, `Normalized()` returns an equal
vector not marked normalized, and `Normalize()` changes nothing. -/
theorem C9_zero_length_normalization_witness :
    (Vector3.Magnitude Example.vZero).1 = Except.ok Real.zero ∧
    (∃ r, (Vector3.Normalized Example.vZero).1 = Except.ok r ∧
      r.x = Example.vZero.x ∧ r.y = Example.vZero.y ∧ r.z = Example.vZero.z ∧
      r.unit = Example.vZero.unit ∧
      Vector3.opEq r Example.vZero = true ∧ r.isNormalized = false) ∧
    ((Vector3.Normalize Example.vZero).1 = Except.ok () ∧
      (Vector3.Normalize Example.vZero).2.x = Example.vZero.x ∧
      (Vector3.Normalize Example.vZero).2.y = Example.vZero.y ∧
      (Vector3.Normalize Example.vZero).2.z = Example.vZero.z ∧
      (Vector3.Normalize Example.vZero).2.unit = Example.vZero.unit ∧
      (Vector3.Normalize Example.vZero).2.isNormalized = false) :=
  ⟨by decide,
    C9_zero_length_normalization Example.vZero
      (Vector3.Reach.ctor _ _ _ Real.Obtainable.zero Real.Obtainable.zero Real.Obtainable.zero)
      Real.zero (by decide) (by decide)⟩

/-- C8 fails as stated.  `Vector3(1.0e200, 0, 0)` has a non-zero component, yet
`Normalized()` throws, because the square overflows; `Vector3(1.0e-200, 0, 0)` has a
non-zero component, yet `Normalized()` returns it unchanged and not marked normalized,
because the square underflows to zero.  And a non-zero `Magnitude()` does not make the
call succeed either: in the state `Example.vSmallStale`, left behind by a `/=` that threw,
the cached magnitude is `1.0770329614269008e-15` while `x` is `8.096090132292425e307`, and
the division `x / len` overflows. -/
theorem C8_counterexample :
    Double.ofScientific 1 200 = Example.r1e200.value ∧
    Real.ctor Example.r1e200.value = Except.ok Example.r1e200 ∧
    Real.opEq Example.vHuge.x Real.zero = false ∧
    (Vector3.Normalized Example.vHuge).1 = Except.error Exn.domain_error ∧
    Double.ofScientific 1 (-200) = Example.r1em200.value ∧
    Real.ctor Example.r1em200.value = Except.ok Example.r1em200 ∧
    Real.opEq Example.vTiny.x Real.zero = false ∧
    (∃ r, (Vector3.Normalized Example.vTiny).1 = Except.ok r ∧
      r.x = Example.vTiny.x ∧ r.isNormalized = false) ∧
    Vector3.Reach true Example.vSmallStale ∧
    (Vector3.Magnitude Example.vSmallStale).1
      = Except.ok { _value := Double.ofBits 0x3CD366F016E94779 } ∧
    Real.opEq { _value := Double.ofBits 0x3CD366F016E94779 } Real.zero = false ∧
    (Vector3.Normalized Example.vSmallStale).1 = Except.error Exn.domain_error := by
  exact ⟨by decide, by decide, by decide, by decide, by decide, by decide, by decide,
    ⟨(Vector3.Magnitude Example.vTiny).2, by decide, by decide, by decide⟩,
    Vector3.Reach.opDivAssign _ _
      (Vector3.Reach.Magnitude _ (Vector3.Reach.ctor _ _ _ (Real.obtainable_of_finite _ rfl)
        (Real.obtainable_of_finite _ rfl) Real.Obtainable.zero))
      (Real.obtainable_of_finite _ rfl) (Or.inl rfl),
    by decide, by decide, by decide⟩

/-- C8, amended: for every vector `v` whose `Magnitude()` returns a Scalar `len` that
does not compare equal to zero, `v.Normalized()` throws exactly when one of the three
divisions `x / len`, `y / len`, `z / len` throws, and otherwise returns a vector `r`
with `isNormalized()` true, `r.Magnitude()` returning exactly Scalar one, the unit tag
of `v`, and each component the component of `v` divided by `len`. -/
theorem C8_normalized_of_nonzero_magnitude (v : Vector3) (len : Real)
    (hm : (Vector3.Magnitude v).1 = Except.ok len)
    (hz : Real.opEq len Real.zero = false) :
    ((Vector3.Normalized v).1 = Except.error Exn.domain_error ↔
      (Real.opDiv v.x len = Except.error Exn.domain_error ∨
        Real.opDiv v.y len = Except.error Exn.domain_error ∨
        Real.opDiv v.z len = Except.error Exn.domain_error)) ∧
    (∀ r, (Vector3.Normalized v).1 = Except.ok r →
      r.isNormalized = true ∧ Vector3.Magnitude r = (Except.ok Real.one, r) ∧
      r.unit = v.unit ∧ Real.opDiv v.x len = Except.ok r.x ∧
      Real.opDiv v.y len = Except.ok r.y ∧ Real.opDiv v.z len = Except.ok r.z) := by
  rcases (Vector3.Normalized_cases v).2 with ⟨e, he, _⟩ | ⟨len1, hl, hz1, _⟩ |
      ⟨len1, hl, _, ⟨rx, ry, rz, hx, hy, hzz, h1⟩ | ⟨hdiv, h1⟩⟩
  · rw [he] at hm; cases hm
  · rw [hl] at hm; cases hm
    rw [hz] at hz1; cases hz1
  · rw [hl] at hm; cases hm
    constructor
    · simp [h1, Vector3.x, Vector3.y, Vector3.z, hx, hy, hzz]
    · intro r hr
      rw [h1] at hr
      cases hr
      exact ⟨rfl, rfl, rfl, hx, hy, hzz⟩
  · rw [hl] at hm; cases hm
    constructor
    · simp only [h1, true_iff]
      exact hdiv
    · intro r hr
      rw [h1] at hr
      cases hr

/-- C8, amended, at `Vector3(3,4,0)`: the magnitude is five, and `Normalized()` returns
`(0.6, 0.8, 0)` marked normalized, with magnitude one and the unit tag kept. -/
theorem C8_normalized_of_nonzero_magnitude_witness :
    (Vector3.Magnitude Example.v340).1 = Except.ok Example.five ∧
    Real.opEq Example.five Real.zero = false ∧
    (Vector3.Normalized Example.v340).1 = Except.ok Example.v340Unit ∧
    (Example.v340Unit.isNormalized = true ∧
      Vector3.Magnitude Example.v340Unit = (Except.ok Real.one, Example.v340Unit) ∧
      Example.v340Unit.unit = Example.v340.unit ∧
      Real.opDiv Example.v340.x Example.five = Except.ok Example.v340Unit.x ∧
      Real.opDiv Example.v340.y Example.five = Except.ok Example.v340Unit.y ∧
      Real.opDiv Example.v340.z Example.five = Except.ok Example.v340Unit.z) :=
  ⟨by decide, by decide, by decide,
    (C8_normalized_of_nonzero_magnitude Example.v340 Example.five (by decide) (by decide)).2
      Example.v340Unit (by decide)⟩

/-- C6 at `Vector3(3,4,0)` normalized in place, so that its cache is valid and it is
marked normalized: after `setX(Real(3.0))` the flags are cleared and `Magnitude()`
returns the magnitude of the new components rather than the cached one. -/
theorem C6_cache_coherence_witness :
    (Vector3.Normalize Example.v340).2 = Example.v340Unit ∧
    (Vector3.setX Example.v340Unit Example.three)._magnitudeCacheValid = false ∧
    (Vector3.setX Example.v340Unit Example.three).isNormalized = false ∧
    (Vector3.Magnitude (Vector3.setX Example.v340Unit Example.three)).1
      = Vector3.recomputed (Vector3.setX Example.v340Unit Example.three) ∧
    (Vector3.Magnitude (Vector3.setX Example.v340Unit Example.three)).1
      = Except.ok { _value := Double.ofBits 0x4008D6B3B35C8629 } :=
  ⟨by decide,
    (C6_cache_coherence Example.v340Unit Example.v340Unit Example.three Example.three
      Example.three Example.three).1.1,
    (C6_cache_coherence Example.v340Unit Example.v340Unit Example.three Example.three
      Example.three Example.three).1.2.1,
    (C6_cache_coherence Example.v340Unit Example.v340Unit Example.three Example.three
      Example.three Example.three).1.2.2,
    by decide⟩

/-- C7, amended, at `v = (1, 1.0e308, 0)` and `v += v`: the second sum throws, `x` holds
the new value two, and the rest of `v` is as before. -/
theorem C7_failed_assignment_keeps_the_rest_witness :
    Vector3.opAddAssign Example.vBig Example.vBig
      = (Except.error Exn.domain_error, { Example.vBig with _x := Example.two }) ∧
    Vector3.LeftPartial Example.vBig { Example.vBig with _x := Example.two }
      (Real.opAdd Example.vBig._x Example.vBig._x) (Real.opAdd Example.vBig._y Example.vBig._y)
      (Real.opAdd Example.vBig._z Example.vBig._z) :=
  ⟨by decide,
    (C7_failed_assignment_keeps_the_rest Example.vBig Example.vBig Example.two).1
      Exn.domain_error _ (by decide)⟩

/-! ## Vector3: equality and the unit rule -/

/-- C11: `a == b` is true exactly when the three components compare equal as Scalars
and the unit tags are equal as text; it does not depend on the normalized flag or the
cache of either operand; `a != b` is its negation; and vectors with different unit
tags are unequal, whatever their components: `(3,4,0)` equals itself, and `(3,4,0)`
tagged "m" differs from `(3,4,0)` tagged "s". -/
theorem C11_equality (a b : Vector3) :
    (Vector3.opEq a b = true ↔
      Real.opEq a.x b.x = true ∧ Real.opEq a.y b.y = true ∧ Real.opEq a.z b.z = true ∧
      a.unit = b.unit) ∧
    (∀ (n1 n2 : Bool) (c1 c2 : Real) (k1 k2 : Bool),
      Vector3.opEq
        { a with _normalized := n1, _magnitudeCache := c1, _magnitudeCacheValid := k1 }
        { b with _normalized := n2, _magnitudeCache := c2, _magnitudeCacheValid := k2 }
      = Vector3.opEq a b) ∧
    Vector3.opNe a b = !(Vector3.opEq a b) ∧
    (a.unit ≠ b.unit → Vector3.opEq a b = false ∧ Vector3.opNe a b = true) ∧
    Vector3.opEq Example.v340 Example.v340 = true ∧
    Vector3.opEq Example.v340Unit Example.v340Unit = true ∧
    Vector3.opEq (Vector3.setUnit Example.v340 "m") (Vector3.setUnit Example.v340 "s") = false ∧
    Vector3.opNe (Vector3.setUnit Example.v340 "m") (Vector3.setUnit Example.v340 "s") = true := by
  refine ⟨?_, ?_, rfl, ?_, by decide, by decide, by decide, by decide⟩
  · simp [Vector3.opEq, Vector3.x, Vector3.y, Vector3.z, Vector3.unit, and_assoc]
  · intro n1 n2 c1 c2 k1 k2
    rfl
  · intro h
    have h1 : Vector3.opEq a b = false := by
      simp only [Vector3.unit] at h
      simp [Vector3.opEq, h]
    exact ⟨h1, by simp [Vector3.opNe, h1]⟩

/-- C19: the additive unit rule is idempotent, commutative and associative, and the
marker "mixed units" absorbs every tag; so the unit tag of a sum of vectors is the
same for `a + b` and `b + a`, and for `(a + b) + c` and `a + (b + c)`, whenever the
sums succeed. -/
theorem C19_unit_rule_algebra (u v w : String) :
    Vector3.combineAdditiveUnits u u = u ∧
    Vector3.combineAdditiveUnits u v = Vector3.combineAdditiveUnits v u ∧
    Vector3.combineAdditiveUnits (Vector3.combineAdditiveUnits u v) w
      = Vector3.combineAdditiveUnits u (Vector3.combineAdditiveUnits v w) ∧
    Vector3.combineAdditiveUnits "mixed units" u = "mixed units" ∧
    Vector3.combineAdditiveUnits u "mixed units" = "mixed units" ∧
    (∀ a b r1 r2 : Vector3, Vector3.opAdd a b = Except.ok r1 → Vector3.opAdd b a = Except.ok r2 →
      r1.unit = r2.unit) ∧
    (∀ a b c ab bc r1 r2 : Vector3,
      Vector3.opAdd a b = Except.ok ab → Vector3.opAdd ab c = Except.ok r1 →
      Vector3.opAdd b c = Except.ok bc → Vector3.opAdd a bc = Except.ok r2 →
      r1.unit = r2.unit) := by
  have hidem : ∀ x : String, Vector3.combineAdditiveUnits x x = x := by
    intro x; simp [Vector3.combineAdditiveUnits]
  have hcomm : ∀ x y : String,
      Vector3.combineAdditiveUnits x y = Vector3.combineAdditiveUnits y x := by
    intro x y
    by_cases h : x = y
    · subst h; rfl
    · have h2 : ¬ y = x := fun hh => h hh.symm
      simp [Vector3.combineAdditiveUnits, h, h2]
  have habs : ∀ x : String,
      Vector3.combineAdditiveUnits Vector3.kInconsistentUnits x = Vector3.kInconsistentUnits := by
    intro x
    by_cases h : Vector3.kInconsistentUnits = x <;> simp [Vector3.combineAdditiveUnits, h]
  have hassoc : ∀ x y z : String,
      Vector3.combineAdditiveUnits (Vector3.combineAdditiveUnits x y) z
        = Vector3.combineAdditiveUnits x (Vector3.combineAdditiveUnits y z) := by
    intro x y z
    by_cases hxy : x = y
    · subst hxy
      rw [hidem]
      by_cases hxz : x = z
      · subst hxz; rw [hidem, hidem]
      · have h1 : Vector3.combineAdditiveUnits x z = Vector3.kInconsistentUnits := by
          simp [Vector3.combineAdditiveUnits, hxz]
        rw [h1, hcomm x, habs]
    · have h1 : Vector3.combineAdditiveUnits x y = Vector3.kInconsistentUnits := by
        simp [Vector3.combineAdditiveUnits, hxy]
      rw [h1, habs]
      by_cases hyz : y = z
      · subst hyz; rw [hidem, h1]
      · have h2 : Vector3.combineAdditiveUnits y z = Vector3.kInconsistentUnits := by
          simp [Vector3.combineAdditiveUnits, hyz]
        rw [h2, hcomm x, habs]
  refine ⟨hidem u, hcomm u v, hassoc u v w, habs u, ?_, ?_, ?_⟩
  · have := habs u
    rw [hcomm] at this
    exact this
  · intro a b r1 r2 h1 h2
    have e1 := Vector3.opAddAssign_unit a b r1 ((Vector3.onCopy_ok_iff _ r1).1 h1)
    have e2 := Vector3.opAddAssign_unit b a r2 ((Vector3.onCopy_ok_iff _ r2).1 h2)
    simp only [Vector3.unit]
    rw [e1, e2, hcomm]
  · intro a b c ab bc r1 r2 h1 h2 h3 h4
    have e1 := Vector3.opAddAssign_unit a b ab ((Vector3.onCopy_ok_iff _ ab).1 h1)
    have e2 := Vector3.opAddAssign_unit ab c r1 ((Vector3.onCopy_ok_iff _ r1).1 h2)
    have e3 := Vector3.opAddAssign_unit b c bc ((Vector3.onCopy_ok_iff _ bc).1 h3)
    have e4 := Vector3.opAddAssign_unit a bc r2 ((Vector3.onCopy_ok_iff _ r2).1 h4)
    simp only [Vector3.unit]
    rw [e2, e1, e4, e3, hassoc]

/-! ## Vector3: scaling, dot product and cross product -/

namespace Vector3

/-- A scaling `v *= s` that returned holds the three products and the unit tag of
`v`. -/
theorem opMulAssign_ok (v : Vector3) (s : Real) (v1 : Vector3)
    (h : opMulAssign v s = (Except.ok (), v1)) :
    v1._unit = v._unit ∧ Real.opMul v._x s = Except.ok v1._x ∧
    Real.opMul v._y s = Except.ok v1._y ∧ Real.opMul v._z s = Except.ok v1._z := by
  rcases opMulAssign_cases v s with ⟨rx, ry, rz, hx, hy, hz, h1⟩ | ⟨e, _, h1⟩ |
      ⟨e, rx, _, _, h1⟩ | ⟨e, rx, ry, _, _, _, h1⟩ <;> rw [h1] at h <;> simp at h
  rw [← h]
  exact ⟨rfl, hx, hy, hz⟩

/-- A division `v /= s` that returned holds the three quotients and the unit tag of
`v`. -/
theorem opDivAssign_ok (v : Vector3) (s : Real) (v1 : Vector3)
    (h : opDivAssign v s = (Except.ok (), v1)) :
    v1._unit = v._unit ∧ Real.opDiv v._x s = Except.ok v1._x ∧
    Real.opDiv v._y s = Except.ok v1._y ∧ Real.opDiv v._z s = Except.ok v1._z := by
  rcases opDivAssign_cases v s with ⟨rx, ry, rz, hx, hy, hz, h1⟩ | ⟨e, _, h1⟩ |
      ⟨e, rx, _, _, h1⟩ | ⟨e, rx, ry, _, _, _, h1⟩ <;> rw [h1] at h <;> simp at h
  rw [← h]
  exact ⟨rfl, hx, hy, hz⟩

/-- The chain of `Real` operations behind a dot product that returned. -/
theorem Dot_ok_iff (a b : Vector3) (r : Real) :
    Dot a b = Except.ok r ↔
      ∃ xx yy zz s, Real.opMul a._x b._x = Except.ok xx ∧ Real.opMul a._y b._y = Except.ok yy ∧
        Real.opMul a._z b._z = Except.ok zz ∧ Real.opAdd xx yy = Except.ok s ∧
        Real.opAdd s zz = Except.ok r := by
  simp only [Dot, bind_ok]
  constructor
  · rintro ⟨xx, hxx, yy, hyy, s, hs, zz, hzz, h⟩
    exact ⟨xx, yy, zz, s, hxx, hyy, hzz, hs, h⟩
  · rintro ⟨xx, yy, zz, s, hxx, hyy, hzz, hs, h⟩
    exact ⟨xx, hxx, yy, hyy, s, hs, zz, hzz, h⟩

end Vector3

/-- C16: when the operation succeeds, `v * s`, `v / s`, and `v` after `v *= s` or
`v /= s` carry the unit tag of `v` and the components `v.x op s`, `v.y op s`, `v.z op s`
computed in Scalar arithmetic; and `s * v` is `v * s`: it fails exactly when `v * s`
does and returns the same vector, field by field. -/
theorem C16_scaling (v : Vector3) (s : Real) :
    (∀ r, Vector3.opMul v s = Except.ok r →
      r.unit = v.unit ∧ Real.opMul v.x s = Except.ok r.x ∧
      Real.opMul v.y s = Except.ok r.y ∧ Real.opMul v.z s = Except.ok r.z) ∧
    (∀ r, Vector3.opDiv v s = Except.ok r →
      r.unit = v.unit ∧ Real.opDiv v.x s = Except.ok r.x ∧
      Real.opDiv v.y s = Except.ok r.y ∧ Real.opDiv v.z s = Except.ok r.z) ∧
    (∀ v1, Vector3.opMulAssign v s = (Except.ok (), v1) →
      v1.unit = v.unit ∧ Real.opMul v.x s = Except.ok v1.x ∧
      Real.opMul v.y s = Except.ok v1.y ∧ Real.opMul v.z s = Except.ok v1.z) ∧
    (∀ v1, Vector3.opDivAssign v s = (Except.ok (), v1) →
      v1.unit = v.unit ∧ Real.opDiv v.x s = Except.ok v1.x ∧
      Real.opDiv v.y s = Except.ok v1.y ∧ Real.opDiv v.z s = Except.ok v1.z) ∧
    Vector3.opMulLeft s v = Vector3.opMul v s ∧
    (Vector3.opMulLeft s v = Except.error Exn.domain_error ↔
      Vector3.opMul v s = Except.error Exn.domain_error) :=
  ⟨fun r h => Vector3.opMulAssign_ok v s r ((Vector3.onCopy_ok_iff _ r).1 h),
   fun r h => Vector3.opDivAssign_ok v s r ((Vector3.onCopy_ok_iff _ r).1 h),
   fun v1 h => Vector3.opMulAssign_ok v s v1 h,
   fun v1 h => Vector3.opDivAssign_ok v s v1 h,
   rfl, Iff.rfl⟩

/-- C16 at `(3,4,0)` tagged "m" and the Scalar two: `v * 2`, `2 * v` and `v` after
`v *= 2` are `(6,8,0)` tagged "m", and `v / 2` is `(1.5,2,0)` tagged "m". -/
theorem C16_scaling_witness :
    (∃ r, Vector3.opMul Example.vMetres Example.two = Except.ok r ∧
      Vector3.opMulLeft Example.two Example.vMetres = Except.ok r ∧
      Vector3.opMulAssign Example.vMetres Example.two = (Except.ok (), r) ∧
      r.unit = "m" ∧ Real.opMul Example.three Example.two = Except.ok r.x ∧
      r.x = { _value := Double.ofBits 0x4018000000000000 } ∧
      r.y = { _value := Double.ofBits 0x4020000000000000 }) ∧
    (∃ r, Vector3.opDiv Example.vMetres Example.two = Except.ok r ∧ r.unit = "m" ∧
      r.x = { _value := Double.ofBits 0x3FF8000000000000 } ∧ r.y = Example.two) :=
  ⟨⟨(Vector3.opMulAssign Example.vMetres Example.two).2, by decide, by decide, by decide,
    ((C16_scaling Example.vMetres Example.two).1 _ (by decide)).1.trans (by decide),
    ((C16_scaling Example.vMetres Example.two).1 _ (by decide)).2.1,
    by decide, by decide⟩,
   ⟨(Vector3.opDivAssign Example.vMetres Example.two).2, by decide,
    ((C16_scaling Example.vMetres Example.two).2.1 _ (by decide)).1.trans (by decide),
    by decide, by decide⟩⟩

/-- C13: `a.Dot(b)` returns exactly when the three products and the two sums of
`ax*bx + ay*by + az*bz` succeed in Scalar arithmetic, and then holds that sum; it throws
exactly when one of those five operations does.  The result depends on the components
only, not on unit tags, normalized flags or caches.  `Dot` is a `const` member that
writes no `mutable` member, so it has no effect on either operand: the embedding gives
it no receiver to return.  `(1,0,0).Dot((0,1,0))` is zero, and `v.Dot(v)` is
`v.MagnitudeSquared()`. -/
theorem C13_dot_product (a b : Vector3) :
    (∀ r, Vector3.Dot a b = Except.ok r ↔
      ∃ xx yy zz s, Real.opMul a.x b.x = Except.ok xx ∧ Real.opMul a.y b.y = Except.ok yy ∧
        Real.opMul a.z b.z = Except.ok zz ∧ Real.opAdd xx yy = Except.ok s ∧
        Real.opAdd s zz = Except.ok r) ∧
    (Vector3.Dot a b = Except.error Exn.domain_error ↔
      Real.opMul a.x b.x = Except.error Exn.domain_error ∨
      Real.opMul a.y b.y = Except.error Exn.domain_error ∨
      Real.opMul a.z b.z = Except.error Exn.domain_error ∨
      (∃ xx yy, Real.opMul a.x b.x = Except.ok xx ∧ Real.opMul a.y b.y = Except.ok yy ∧
        Real.opAdd xx yy = Except.error Exn.domain_error) ∨
      (∃ xx yy zz s, Real.opMul a.x b.x = Except.ok xx ∧ Real.opMul a.y b.y = Except.ok yy ∧
        Real.opMul a.z b.z = Except.ok zz ∧ Real.opAdd xx yy = Except.ok s ∧
        Real.opAdd s zz = Except.error Exn.domain_error)) ∧
    (∀ r, Vector3.Dot a b = Except.ok r →
      r.value = Double.add
        (Double.add (Double.mul a.x.value b.x.value) (Double.mul a.y.value b.y.value))
        (Double.mul a.z.value b.z.value)) ∧
    (∀ (u1 u2 : String) (n1 n2 : Bool) (c1 c2 : Real) (k1 k2 : Bool),
      Vector3.Dot
        { a with _unit := u1, _normalized := n1, _magnitudeCache := c1,
                 _magnitudeCacheValid := k1 }
        { b with _unit := u2, _normalized := n2, _magnitudeCache := c2,
                 _magnitudeCacheValid := k2 }
      = Vector3.Dot a b) ∧
    Vector3.Dot a a = Vector3.MagnitudeSquared a ∧
    Vector3.Dot Example.e1 Example.e2 = Except.ok Real.zero ∧
    Vector3.Dot Example.v340 Example.v340 = Except.ok Example.twentyFive := by
  refine ⟨Vector3.Dot_ok_iff a b, ?_, ?_, ?_, rfl, by decide, by decide⟩
  · simp only [Vector3.x, Vector3.y, Vector3.z, Vector3.Dot]
    cases hxx : Real.opMul a._x b._x with
    | error e => cases e; simp [bind, Except.bind]
    | ok xx =>
      cases hyy : Real.opMul a._y b._y with
      | error e => cases e; simp [bind, Except.bind]
      | ok yy =>
        cases hs : Real.opAdd xx yy with
        | error e => cases e; simp [bind, Except.bind, hs]
        | ok sm =>
          cases hzz : Real.opMul a._z b._z with
          | error e => cases e; simp [bind, Except.bind, hs]
          | ok zz =>
            cases hr : Real.opAdd sm zz with
            | error e => cases e; simp [bind, Except.bind, hs, hr]
            | ok r => simp [bind, Except.bind, hs, hr]
  · intro r h
    obtain ⟨xx, yy, zz, sm, hxx, hyy, hzz, hs, hr⟩ := (Vector3.Dot_ok_iff a b r).1 h
    simp only [Real.value, Vector3.x, Vector3.y, Vector3.z]
    rw [Real.opAdd_value hr, Real.opAdd_value hs, Real.opMul_value hxx,
      Real.opMul_value hyy, Real.opMul_value hzz]
  · intro u1 u2 n1 n2 c1 c2 k1 k2
    rfl

namespace Vector3

/-- Each term `p * q - r * s` returns exactly when its three operations do. -/
theorem crossTerm_ok_iff (p q r s c : Real) :
    crossTerm p q r s = Except.ok c ↔
      ∃ pq rs, Real.opMul p q = Except.ok pq ∧ Real.opMul r s = Except.ok rs ∧
        Real.opSub pq rs = Except.ok c := by
  simp only [crossTerm, bind_ok]
  constructor
  · rintro ⟨pq, h1, rs, h2, h3⟩
    exact ⟨pq, rs, h1, h2, h3⟩
  · rintro ⟨pq, rs, h1, h2, h3⟩
    exact ⟨pq, h1, rs, h2, h3⟩

/-- The member `Cross` is its three terms in order, then the constructor and the
unit rule. -/
theorem Cross_eq_terms (a b : Vector3) :
    Cross a b = (do
      let cx ← crossTerm a._y b._z a._z b._y
      let cy ← crossTerm a._z b._x a._x b._z
      let cz ← crossTerm a._x b._y a._y b._x
      pure { ctor cx cy cz with _unit := combineAdditiveUnits a._unit b._unit }) := by
  simp only [Cross, crossTerm, bind_assoc]

/-- A cross product returns exactly when its three terms do, and then is the vector
constructed from them with the combined unit tag. -/
theorem Cross_ok_iff (a b r : Vector3) :
    Cross a b = Except.ok r ↔
      ∃ cx cy cz, crossTerm a._y b._z a._z b._y = Except.ok cx ∧
        crossTerm a._z b._x a._x b._z = Except.ok cy ∧
        crossTerm a._x b._y a._y b._x = Except.ok cz ∧
        r = { ctor cx cy cz with _unit := combineAdditiveUnits a._unit b._unit } := by
  rw [Cross_eq_terms]
  simp only [bind_ok]
  constructor
  · rintro ⟨cx, h1, cy, h2, cz, h3, h⟩
    simp [pure, Except.pure] at h
    exact ⟨cx, cy, cz, h1, h2, h3, h.symm⟩
  · rintro ⟨cx, cy, cz, h1, h2, h3, h⟩
    exact ⟨cx, h1, cy, h2, cz, h3, by simp [pure, Except.pure, h]⟩

end Vector3

/-- C12: a cross product that returned has the components `ay*bz - az*by`,
`az*bx - ax*bz`, `ax*by - ay*bx` computed in Scalar arithmetic, the unit tag given by
the additive rule (the tag of `a` if the two tags are equal, "mixed units" otherwise),
the normalized flag false and the cache not valid. -/
theorem C12_cross_product (a b r : Vector3) (h : Vector3.Cross a b = Except.ok r) :
    (∃ yz zy, Real.opMul a.y b.z = Except.ok yz ∧ Real.opMul a.z b.y = Except.ok zy ∧
      Real.opSub yz zy = Except.ok r.x) ∧
    (∃ zx xz, Real.opMul a.z b.x = Except.ok zx ∧ Real.opMul a.x b.z = Except.ok xz ∧
      Real.opSub zx xz = Except.ok r.y) ∧
    (∃ xy yx, Real.opMul a.x b.y = Except.ok xy ∧ Real.opMul a.y b.x = Except.ok yx ∧
      Real.opSub xy yx = Except.ok r.z) ∧
    r.unit = (if a.unit = b.unit then a.unit else "mixed units") ∧
    r.isNormalized = false ∧ r._magnitudeCacheValid = false := by
  obtain ⟨cx, cy, cz, h1, h2, h3, hr⟩ := (Vector3.Cross_ok_iff a b r).1 h
  subst hr
  exact ⟨(Vector3.crossTerm_ok_iff _ _ _ _ _).1 h1, (Vector3.crossTerm_ok_iff _ _ _ _ _).1 h2,
    (Vector3.crossTerm_ok_iff _ _ _ _ _).1 h3, rfl, rfl, rfl⟩

/-- C12 at `a = (1,0,0)`, `b = (0,1,0)`: the cross product is `(0,0,1)`, equal to
`Vector3(0,0,1)` under `operator==`. -/
theorem C12_cross_product_witness :
    Vector3.Cross Example.e1 Example.e2 = Except.ok Example.e3 ∧
    Vector3.opEq Example.e3 (Vector3.ctor Real.zero Real.zero Real.one) = true ∧
    (∃ xy yx, Real.opMul Example.e1.x Example.e2.y = Except.ok xy ∧
      Real.opMul Example.e1.y Example.e2.x = Except.ok yx ∧
      Real.opSub xy yx = Except.ok Example.e3.z) ∧
    Example.e3.unit = "dimensionless" ∧ Example.e3.isNormalized = false ∧
    Example.e3._magnitudeCacheValid = false :=
  ⟨by decide, by decide,
    (C12_cross_product Example.e1 Example.e2 Example.e3 (by decide)).2.2.1,
    by decide, by decide, by decide⟩

/-! ## Vector3: the two normalizations and the memoized magnitude -/

namespace Vector3

/-- The member `Normalize()` does to the receiver what `Normalized()` returns: the two
throw together, and when they return the receiver is the returned vector. -/
theorem Normalize_eq_Normalized (v : Vector3) :
    ((Normalize v).1 = Except.error Exn.domain_error ↔
      (Normalized v).1 = Except.error Exn.domain_error) ∧
    ((Normalize v).1 = Except.ok () → (Normalized v).1 = Except.ok (Normalize v).2) ∧
    (∀ r, (Normalized v).1 = Except.ok r → Normalize v = (Except.ok (), r)) := by
  unfold Normalize Normalized
  rcases Magnitude_cases v with ⟨_, hm⟩ | ⟨_, e, _, hm⟩ | ⟨_, m, _, hm⟩
  · rw [hm]
    cases hz : Real.opEq v._magnitudeCache Real.zero with
    | true => simp [hz]
    | false =>
      cases hx : Real.opDiv v._x v._magnitudeCache with
      | error e => cases e; simp [hz, hx]
      | ok rx =>
        cases hy : Real.opDiv v._y v._magnitudeCache with
        | error e => cases e; simp [hz, hx, hy]
        | ok ry =>
          cases hzz : Real.opDiv v._z v._magnitudeCache with
          | error e => cases e; simp [hz, hx, hy, hzz]
          | ok rz => simp [hz, hx, hy, hzz, ctor]
  · rw [hm]; cases e; simp
  · rw [hm]
    cases hz : Real.opEq m Real.zero with
    | true => simp [hz]
    | false =>
      cases hx : Real.opDiv v._x m with
      | error e => cases e; simp [hz, hx]
      | ok rx =>
        cases hy : Real.opDiv v._y m with
        | error e => cases e; simp [hz, hx, hy]
        | ok ry =>
          cases hzz : Real.opDiv v._z m with
          | error e => cases e; simp [hz, hx, hy, hzz]
          | ok rz => simp [hz, hx, hy, hzz, ctor]

end Vector3

/-- C14: `v.Normalize()` throws exactly when `v.Normalized()` does, and when they
return, the receiver after `Normalize()` is, field by field (components, unit tag,
normalized flag, cached magnitude and cache validity flag), the vector that
`Normalized()` returns on a copy of the original `v`. -/
theorem C14_normalize_agrees_with_normalized (v : Vector3) :
    ((Vector3.Normalize v).1 = Except.error Exn.domain_error ↔
      (Vector3.Normalized v).1 = Except.error Exn.domain_error) ∧
    ((Vector3.Normalize v).1 = Except.ok () →
      (Vector3.Normalized v).1 = Except.ok (Vector3.Normalize v).2) ∧
    (∀ r, (Vector3.Normalized v).1 = Except.ok r →
      (Vector3.Normalize v).1 = Except.ok () ∧
      (Vector3.Normalize v).2.x = r.x ∧ (Vector3.Normalize v).2.y = r.y ∧
      (Vector3.Normalize v).2.z = r.z ∧ (Vector3.Normalize v).2.unit = r.unit ∧
      (Vector3.Normalize v).2.isNormalized = r.isNormalized ∧
      (Vector3.Normalize v).2._magnitudeCache = r._magnitudeCache ∧
      (Vector3.Normalize v).2._magnitudeCacheValid = r._magnitudeCacheValid) := by
  obtain ⟨h1, h2, h3⟩ := Vector3.Normalize_eq_Normalized v
  refine ⟨h1, h2, ?_⟩
  intro r hr
  rw [h3 r hr]
  exact ⟨rfl, rfl, rfl, rfl, rfl, rfl, rfl, rfl⟩

/-- C14 at `Vector3(3,4,0)`, at the zero vector and at `Vector3(1.0e200,0,0)`: both
normalizations give `(0.6, 0.8, 0)`; both leave the zero vector unmarked; both
throw. -/
theorem C14_normalize_agrees_with_normalized_witness :
    Vector3.Normalize Example.v340 = (Except.ok (), Example.v340Unit) ∧
    (Vector3.Normalized Example.v340).1 = Except.ok Example.v340Unit ∧
    (Vector3.Normalize Example.vZero).1 = Except.ok () ∧
    (Vector3.Normalized Example.vZero).1 = Except.ok (Vector3.Normalize Example.vZero).2 ∧
    (Vector3.Normalize Example.vZero).2.isNormalized = false ∧
    (Vector3.Normalized Example.vHuge).1 = Except.error Exn.domain_error ∧
    (Vector3.Normalize Example.vHuge).1 = Except.error Exn.domain_error :=
  ⟨by decide, by decide, by decide,
    (C14_normalize_agrees_with_normalized Example.vZero).2.1 (by decide),
    by decide, by decide,
    (C14_normalize_agrees_with_normalized Example.vHuge).1.2 (by decide)⟩

/-- C17: with the validity flag set, `Magnitude()` returns the cached Scalar and
changes nothing.  With the flag not set, a `Magnitude()` that returns gives
`sqrt(MagnitudeSquared())` and leaves the receiver with that value cached and the cache
marked valid; and when `MagnitudeSquared()` throws, `Magnitude()` throws and leaves the
receiver as it was, the cache not valid.  In every case the components, the unit tag and
the normalized flag are unchanged, and a second call right after a call that returned
returns the same value and changes nothing. -/
theorem C17_magnitude_memoization (v : Vector3) :
    (v._magnitudeCacheValid = true →
      Vector3.Magnitude v = (Except.ok v._magnitudeCache, v)) ∧
    (v._magnitudeCacheValid = false → ∀ len, (Vector3.Magnitude v).1 = Except.ok len →
      (∃ ms, Vector3.MagnitudeSquared v = Except.ok ms ∧
        Real.ctor (Double.sqrt ms.value) = Except.ok len ∧
        len.value = Double.sqrt ms.value) ∧
      (Vector3.Magnitude v).2
        = { v with _magnitudeCache := len, _magnitudeCacheValid := true }) ∧
    (v._magnitudeCacheValid = false → ∀ e, Vector3.MagnitudeSquared v = Except.error e →
      Vector3.Magnitude v = (Except.error e, v) ∧
      (Vector3.Magnitude v).2._magnitudeCacheValid = false) ∧
    ((Vector3.Magnitude v).2.x = v.x ∧ (Vector3.Magnitude v).2.y = v.y ∧
      (Vector3.Magnitude v).2.z = v.z ∧ (Vector3.Magnitude v).2.unit = v.unit ∧
      (Vector3.Magnitude v).2.isNormalized = v.isNormalized) ∧
    (∀ len, (Vector3.Magnitude v).1 = Except.ok len →
      Vector3.Magnitude (Vector3.Magnitude v).2 = (Except.ok len, (Vector3.Magnitude v).2)) := by
  refine ⟨?_, ?_, ?_, Vector3.Magnitude_frame v, ?_⟩
  · intro hv
    simp [Vector3.Magnitude, hv]
  · intro hv len hlen
    rcases Vector3.Magnitude_cases v with ⟨hv1, _⟩ | ⟨_, e, _, hm⟩ | ⟨_, m, hr, hm⟩
    · rw [hv] at hv1; cases hv1
    · rw [hm] at hlen; cases hlen
    · rw [hm] at hlen ⊢
      cases hlen
      refine ⟨?_, rfl⟩
      unfold Vector3.recomputed at hr
      cases hms : Vector3.MagnitudeSquared v with
      | error e => simp [hms] at hr
      | ok ms =>
        simp [hms] at hr
        exact ⟨ms, rfl, hr, Real.ctor_value hr⟩
  · intro hv e he
    have h1 : Vector3.Magnitude v = (Except.error e, v) := by
      simp [Vector3.Magnitude, hv, he]
    rw [h1]
    exact ⟨rfl, hv⟩
  · intro len hlen
    obtain ⟨hc, hvalid⟩ := Vector3.Magnitude_ok v len hlen
    have key : ∀ w : Vector3, w._magnitudeCacheValid = true →
        Vector3.Magnitude w = (Except.ok w._magnitudeCache, w) := by
      intro w hw
      simp [Vector3.Magnitude, hw]
    have h2 := key _ hvalid
    rw [hc] at h2
    exact h2

/-- C17 at `Vector3(3,4,0)`: `MagnitudeSquared()` is 25; the first `Magnitude()` is 5
and caches it; the second returns the cached 5. -/
theorem C17_magnitude_memoization_witness :
    Vector3.MagnitudeSquared Example.v340 = Except.ok Example.twentyFive ∧
    (Vector3.Magnitude Example.v340).1 = Except.ok Example.five ∧
    (Vector3.Magnitude Example.v340).2
      = { Example.v340 with _magnitudeCache := Example.five, _magnitudeCacheValid := true } ∧
    Vector3.Magnitude (Vector3.Magnitude Example.v340).2
      = (Except.ok Example.five, (Vector3.Magnitude Example.v340).2) ∧
    Vector3.MagnitudeSquared Example.vHuge = Except.error Exn.domain_error ∧
    Vector3.Magnitude Example.vHuge = (Except.error Exn.domain_error, Example.vHuge) :=
  ⟨by decide, by decide,
    ((C17_magnitude_memoization Example.v340).2.1 (by decide) Example.five (by decide)).2,
    (C17_magnitude_memoization Example.v340).2.2.2.2 Example.five (by decide),
    by decide,
    ((C17_magnitude_memoization Example.vHuge).2.2.1 (by decide) Exn.domain_error
      (by decide)).1⟩

/-! ## Vector3: the normalized flag and negation -/

namespace Double

/-- Multiplying a finite double by `-1.0` negates it. -/
theorem mul_negOne_eq_neg (d : Double) (h : d.isFinite = true) : mul d negOne = neg d := by
  cases d with
  | nan => cases h
  | inf s => cases h
  | fin s ex fr => rw [mul_negOne]; rfl

end Double

namespace Real

/-- A valid Scalar times `Real(-1.0)` is the Scalar with the sign flipped; the product
never throws. -/
theorem opMul_negOne (a : Real) (h : a._value.isFinite = true) :
    opMul a { _value := Double.negOne } = Except.ok { _value := Double.neg a._value } := by
  rw [opMul_eq]
  simp only [Double.mul_negOne_eq_neg a._value h, Double.isFinite_neg, h, if_true]

end Real

namespace Vector3

/-- The negation of a vector of valid Scalars never throws: it is the vector of the
negated components with the unit tag kept and the cache invalidated. -/
theorem opNeg_ok (v : Vector3) (hx : v._x._value.isFinite = true)
    (hy : v._y._value.isFinite = true) (hz : v._z._value.isFinite = true) :
    opNeg v = Except.ok (InvalidateCache { v with
      _x := { _value := Double.neg v._x._value },
      _y := { _value := Double.neg v._y._value },
      _z := { _value := Double.neg v._z._value } }) := by
  unfold opNeg
  simp only [Real.ctor_of_finite Double.negOne rfl]
  rw [onCopy_ok_iff]
  unfold opMulAssign
  simp only [Real.opMul_negOne _ hx, Real.opMul_negOne _ hy, Real.opMul_negOne _ hz]

end Vector3

/-- C18: in every reachable state, the states left behind by a call that threw
included, a vector marked normalized has the cache validity flag set and the cached
magnitude exactly Scalar one, so that its `Magnitude()` returns exactly one and changes
nothing.  And a vector produced by a setter, by `Cross`, by negation, or by a binary or a
compound arithmetic operator that returned is not marked normalized. -/
theorem C18_normalized_flag_invariant (v : Vector3) (h : Vector3.Reach true v) :
    (v.isNormalized = true →
      v._magnitudeCacheValid = true ∧ v._magnitudeCache = Real.one ∧
      Vector3.Magnitude v = (Except.ok Real.one, v)) ∧
    (∀ a, (Vector3.setX v a).isNormalized = false ∧ (Vector3.setY v a).isNormalized = false ∧
      (Vector3.setZ v a).isNormalized = false) ∧
    (∀ a b c, (Vector3.setComponents v a b c).isNormalized = false) ∧
    (∀ w r, Vector3.Cross v w = Except.ok r → r.isNormalized = false) ∧
    (∀ r, Vector3.opNeg v = Except.ok r → r.isNormalized = false) ∧
    (∀ w r, Vector3.opAdd v w = Except.ok r → r.isNormalized = false) ∧
    (∀ w r, Vector3.opSub v w = Except.ok r → r.isNormalized = false) ∧
    (∀ s r, Vector3.opMul v s = Except.ok r → r.isNormalized = false) ∧
    (∀ s r, Vector3.opDiv v s = Except.ok r → r.isNormalized = false) ∧
    (∀ s r, Vector3.opMulLeft s v = Except.ok r → r.isNormalized = false) ∧
    (∀ w v1, Vector3.opAddAssign v w = (Except.ok (), v1) → v1.isNormalized = false) ∧
    (∀ w v1, Vector3.opSubAssign v w = (Except.ok (), v1) → v1.isNormalized = false) ∧
    (∀ s v1, Vector3.opMulAssign v s = (Except.ok (), v1) → v1.isNormalized = false) ∧
    (∀ s v1, Vector3.opDivAssign v s = (Except.ok (), v1) → v1.isNormalized = false) := by
  obtain ⟨hn, hfx, hfy, hfz, _⟩ := Vector3.reach_NormalizedInv v h
  refine ⟨?_, fun a => ⟨rfl, rfl, rfl⟩, fun a b c => rfl, ?_, ?_, ?_, ?_, ?_, ?_, ?_, ?_, ?_,
    ?_, ?_⟩
  · intro hnorm
    obtain ⟨hv, hc⟩ := hn hnorm
    refine ⟨hv, hc, ?_⟩
    simp [Vector3.Magnitude, hv, hc]
  · intro w r hr
    exact (Vector3.Cross_fresh v w r hr).1
  · intro r hr
    rw [Vector3.opNeg_ok v hfx hfy hfz] at hr
    cases hr
    rfl
  · intro w r hr
    exact (Vector3.opAddAssign_fresh v w r ((Vector3.onCopy_ok_iff _ r).1 hr)).2.1
  · intro w r hr
    exact (Vector3.opSubAssign_fresh v w r ((Vector3.onCopy_ok_iff _ r).1 hr)).2.1
  · intro s r hr
    exact (Vector3.opMulAssign_fresh v s r ((Vector3.onCopy_ok_iff _ r).1 hr)).2.1
  · intro s r hr
    exact (Vector3.opDivAssign_fresh v s r ((Vector3.onCopy_ok_iff _ r).1 hr)).2.1
  · intro s r hr
    exact (Vector3.opMulAssign_fresh v s r ((Vector3.onCopy_ok_iff _ r).1 hr)).2.1
  · intro w v1 hr
    exact (Vector3.opAddAssign_fresh v w v1 hr).2.1
  · intro w v1 hr
    exact (Vector3.opSubAssign_fresh v w v1 hr).2.1
  · intro s v1 hr
    exact (Vector3.opMulAssign_fresh v s v1 hr).2.1
  · intro s v1 hr
    exact (Vector3.opDivAssign_fresh v s v1 hr).2.1

/-- C18 at the state that a throwing `/= Real(4.0e-309)` leaves of the normalized
`(0.6, 0.8, 0)`: `x` holds `1.5000000000000008e308`, the vector is still marked
normalized, its cache is valid and holds one, and `Magnitude()` returns one. -/
theorem C18_normalized_flag_invariant_witness :
    (Vector3.opDivAssign Example.v340Unit Example.r4em309).1 = Except.error Exn.domain_error ∧
    Example.vUnitStale.x = { _value := Double.ofBits 0x7FEAB36D48E1ACF4 } ∧
    Example.vUnitStale.isNormalized = true ∧
    (Example.vUnitStale._magnitudeCacheValid = true ∧
      Example.vUnitStale._magnitudeCache = Real.one ∧
      Vector3.Magnitude Example.vUnitStale = (Except.ok Real.one, Example.vUnitStale)) :=
  ⟨by decide, by decide, by decide,
    (C18_normalized_flag_invariant Example.vUnitStale
      (Vector3.Reach.opDivAssign _ _
        (Vector3.Reach.Normalized Example.v340 _
          (Vector3.Reach.ctor _ _ _ (Real.obtainable_of_finite _ rfl)
            (Real.obtainable_of_finite _ rfl) Real.Obtainable.zero)
          (by decide))
        (Real.obtainable_of_finite _ rfl) (Or.inl rfl))).1 (by decide)⟩

/-- C15: for every vector `v` of valid Scalars, `-v` does not throw and is `v * Real(-1.0)`:
each component is the component of `v` multiplied by negative one, which is that
component with its sign flipped; the unit tag is that of `v`, the normalized flag is
false and the cache is not valid, whatever the flags of `v` were.  Negation is a `const`
member working on a copy: `v` is not touched. -/
theorem C15_negation (v : Vector3) (hx : v.x.value.isFinite = true)
    (hy : v.y.value.isFinite = true) (hz : v.z.value.isFinite = true) :
    Real.ctor Double.negOne = Except.ok { _value := Double.negOne } ∧
    ∃ r, Vector3.opNeg v = Except.ok r ∧
      Vector3.opMul v { _value := Double.negOne } = Except.ok r ∧
      Real.opMul v.x { _value := Double.negOne } = Except.ok r.x ∧
      Real.opMul v.y { _value := Double.negOne } = Except.ok r.y ∧
      Real.opMul v.z { _value := Double.negOne } = Except.ok r.z ∧
      r.x.value = Double.neg v.x.value ∧ r.y.value = Double.neg v.y.value ∧
      r.z.value = Double.neg v.z.value ∧
      r.unit = v.unit ∧ r.isNormalized = false ∧ r._magnitudeCacheValid = false := by
  refine ⟨rfl, _, Vector3.opNeg_ok v hx hy hz, ?_, ?_, ?_, ?_, rfl, rfl, rfl, rfl, rfl, rfl⟩
  · have h := Vector3.opNeg_ok v hx hy hz
    unfold Vector3.opNeg at h
    simp only [Real.ctor_of_finite Double.negOne rfl] at h
    exact h
  · exact Real.opMul_negOne _ hx
  · exact Real.opMul_negOne _ hy
  · exact Real.opMul_negOne _ hz

/-- C15 at the normalized `(0.6, 0.8, 0)`, whose cache is valid: its negation is
`(-0.6, -0.8, -0.0)`, not marked normalized, with the cache not valid. -/
theorem C15_negation_witness :
    Example.v340Unit.isNormalized = true ∧ Example.v340Unit._magnitudeCacheValid = true ∧
    Vector3.opNeg Example.v340Unit = Except.ok Example.v340UnitNeg ∧
    Real.ctor Double.negOne = Except.ok { _value := Double.negOne } ∧
    ∃ r, Vector3.opNeg Example.v340Unit = Except.ok r ∧
      Vector3.opMul Example.v340Unit { _value := Double.negOne } = Except.ok r ∧
      Real.opMul Example.v340Unit.x { _value := Double.negOne } = Except.ok r.x ∧
      Real.opMul Example.v340Unit.y { _value := Double.negOne } = Except.ok r.y ∧
      Real.opMul Example.v340Unit.z { _value := Double.negOne } = Except.ok r.z ∧
      r.x.value = Double.neg Example.v340Unit.x.value ∧
      r.y.value = Double.neg Example.v340Unit.y.value ∧
      r.z.value = Double.neg Example.v340Unit.z.value ∧
      r.unit = Example.v340Unit.unit ∧ r.isNormalized = false ∧
      r._magnitudeCacheValid = false :=
  ⟨by decide, by decide, by decide,
    C15_negation Example.v340Unit (by decide) (by decide) (by decide)⟩

/-! ## Vector3: antisymmetry of the cross product -/

namespace Real

/-- Scalar multiplication is commutative, failures included. -/
theorem opMul_comm (a b : Real) : opMul a b = opMul b a := by
  rw [opMul_eq, opMul_eq, Double.mul_comm]

/-- The two differences `p - q` and `q - p` of valid Scalars throw together, and when
they return, the first compares equal to the second with its sign flipped. -/
theorem opSub_antisymm (p q : Real) (hp : p._value.isFinite = true)
    (hq : q._value.isFinite = true) :
    (opSub p q = Except.error Exn.domain_error ↔ opSub q p = Except.error Exn.domain_error) ∧
    (∀ c d, opSub p q = Except.ok c → opSub q p = Except.ok d →
      Double.eq c._value (Double.neg d._value) = true) := by
  obtain ⟨h1, h2⟩ := Double.sub_antisymm p._value q._value hp hq
  rw [opSub_eq, opSub_eq, h1]
  cases hf : (Double.sub p._value q._value).isFinite with
  | false => simp
  | true =>
    simp only [if_true]
    refine ⟨by simp, ?_⟩
    intro c d hc hd
    cases hc
    cases hd
    exact h2 hf

/-- A valid Scalar minus itself is exactly `zero()`. -/
theorem opSub_self (p : Real) (hp : p._value.isFinite = true) :
    opSub p p = Except.ok zero := by
  rw [opSub_eq, Double.sub_self _ hp]
  rfl

end Real

namespace Vector3

theorem combineAdditiveUnits_self (u : String) : combineAdditiveUnits u u = u := by
  simp [combineAdditiveUnits]

theorem combineAdditiveUnits_comm (u v : String) :
    combineAdditiveUnits u v = combineAdditiveUnits v u := by
  by_cases h : u = v
  · subst h; rfl
  · have h2 : ¬ v = u := fun hh => h hh.symm
    simp [combineAdditiveUnits, h, h2]

/-- The term `p * q - r * s` and the term `s * r - q * p` with the factors and the
operands swapped throw together, and when they return, the first compares equal to the
second with its sign flipped. -/
theorem crossTerm_swap (p q r s : Real) :
    (crossTerm p q r s = Except.error Exn.domain_error ↔
      crossTerm s r q p = Except.error Exn.domain_error) ∧
    (∀ c d, crossTerm p q r s = Except.ok c → crossTerm s r q p = Except.ok d →
      Double.eq c._value (Double.neg d._value) = true) := by
  unfold crossTerm
  rw [Real.opMul_comm s r, Real.opMul_comm q p]
  cases hpq : Real.opMul p q with
  | error e =>
    cases e
    cases hrs : Real.opMul r s with
    | error e => cases e; simp [bind, Except.bind]
    | ok rs => simp [bind, Except.bind]
  | ok pq =>
    cases hrs : Real.opMul r s with
    | error e => cases e; simp [bind, Except.bind]
    | ok rs =>
      simp only [bind, Except.bind]
      exact Real.opSub_antisymm pq rs (Real.opMul_finite hpq) (Real.opMul_finite hrs)

/-- The term `p * q - q * p` of a cross product of a vector with itself, when it
returns, is exactly `zero()`. -/
theorem crossTerm_self (p q c : Real) (h : crossTerm p q q p = Except.ok c) :
    c = Real.zero := by
  obtain ⟨pq, qp, h1, h2, h3⟩ := (crossTerm_ok_iff p q q p c).1 h
  rw [Real.opMul_comm q p, h1] at h2
  cases h2
  rw [Real.opSub_self pq (Real.opMul_finite h1)] at h3
  cases h3
  rfl

/-- A cross product throws exactly when one of its three terms does. -/
theorem Cross_error_iff (a b : Vector3) :
    Cross a b = Except.error Exn.domain_error ↔
      crossTerm a._y b._z a._z b._y = Except.error Exn.domain_error ∨
      crossTerm a._z b._x a._x b._z = Except.error Exn.domain_error ∨
      crossTerm a._x b._y a._y b._x = Except.error Exn.domain_error := by
  rw [Cross_eq_terms]
  cases h1 : crossTerm a._y b._z a._z b._y with
  | error e => cases e; simp [bind, Except.bind]
  | ok cx =>
    cases h2 : crossTerm a._z b._x a._x b._z with
    | error e => cases e; simp [bind, Except.bind]
    | ok cy =>
      cases h3 : crossTerm a._x b._y a._y b._x with
      | error e => cases e; simp [bind, Except.bind]
      | ok cz => simp [bind, Except.bind, pure, Except.pure]

/-- Two vectors whose components compare equal and whose unit tags are equal are
equal under `operator==`. -/
theorem opEq_of_components (r n : Vector3) (hx : Real.opEq r._x n._x = true)
    (hy : Real.opEq r._y n._y = true) (hz : Real.opEq r._z n._z = true)
    (hu : r._unit = n._unit) : opEq r n = true := by
  simp [opEq, hx, hy, hz, hu]

/-- Two vectors equal under `operator==` are not unequal under `operator!=`. -/
theorem opNe_of_opEq (r n : Vector3) (h : opEq r n = true) : opNe r n = false := by
  unfold opNe
  rw [h]
  rfl

/-- A term of a cross product that returned is a valid Scalar. -/
theorem crossTerm_finite (p q r s c : Real) (h : crossTerm p q r s = Except.ok c) :
    c._value.isFinite = true := by
  obtain ⟨pq, rs, _, _, h3⟩ := (crossTerm_ok_iff p q r s c).1 h
  exact Real.opSub_finite h3

end Vector3

/-- C20: `a.Cross(b)` throws exactly when `b.Cross(a)` does; when they return, the
negation of `b.Cross(a)` does not throw and `a.Cross(b) == -(b.Cross(a))` holds under
`operator==` of `Vector3` (components and unit tag); and when `a.Cross(a)` returns,
each of its components is Scalar zero (so compares equal to it) and its unit tag is
that of `a`. -/
theorem C20_cross_antisymmetry (a b : Vector3) :
    (Vector3.Cross a b = Except.error Exn.domain_error ↔
      Vector3.Cross b a = Except.error Exn.domain_error) ∧
    (∀ r1 r2, Vector3.Cross a b = Except.ok r1 → Vector3.Cross b a = Except.ok r2 →
      ∃ n, Vector3.opNeg r2 = Except.ok n ∧ Vector3.opEq r1 n = true ∧
        Vector3.opNe r1 n = false) ∧
    (∀ r, Vector3.Cross a a = Except.ok r →
      Real.opEq r.x Real.zero = true ∧ Real.opEq r.y Real.zero = true ∧
      Real.opEq r.z Real.zero = true ∧ r.x = Real.zero ∧ r.y = Real.zero ∧ r.z = Real.zero ∧
      r.unit = a.unit) := by
  refine ⟨?_, ?_, ?_⟩
  · rw [Vector3.Cross_error_iff, Vector3.Cross_error_iff,
      (Vector3.crossTerm_swap a._y b._z a._z b._y).1,
      (Vector3.crossTerm_swap a._z b._x a._x b._z).1,
      (Vector3.crossTerm_swap a._x b._y a._y b._x).1]
  · intro r1 r2 h1 h2
    obtain ⟨cx, cy, cz, hx, hy, hz, e1⟩ := (Vector3.Cross_ok_iff a b r1).1 h1
    obtain ⟨dx, dy, dz, gx, gy, gz, e2⟩ := (Vector3.Cross_ok_iff b a r2).1 h2
    have fx := Vector3.crossTerm_finite _ _ _ _ _ gx
    have fy := Vector3.crossTerm_finite _ _ _ _ _ gy
    have fz := Vector3.crossTerm_finite _ _ _ _ _ gz
    have kx := (Vector3.crossTerm_swap a._y b._z a._z b._y).2 cx dx hx gx
    have ky := (Vector3.crossTerm_swap a._z b._x a._x b._z).2 cy dy hy gy
    have kz := (Vector3.crossTerm_swap a._x b._y a._y b._x).2 cz dz hz gz
    subst e1
    subst e2
    have hneg := Vector3.opNeg_ok
      { Vector3.ctor dx dy dz with _unit := Vector3.combineAdditiveUnits b._unit a._unit }
      fx fy fz
    refine ⟨_, hneg, ?_⟩
    have heq := Vector3.opEq_of_components
      { Vector3.ctor cx cy cz with _unit := Vector3.combineAdditiveUnits a._unit b._unit }
      (Vector3.InvalidateCache
        { ({ Vector3.ctor dx dy dz with
              _unit := Vector3.combineAdditiveUnits b._unit a._unit } : Vector3) with
          _x := { _value := Double.neg dx._value },
          _y := { _value := Double.neg dy._value },
          _z := { _value := Double.neg dz._value } })
      kx ky kz (Vector3.combineAdditiveUnits_comm a._unit b._unit)
    exact ⟨heq, Vector3.opNe_of_opEq _ _ heq⟩
  · intro r h
    obtain ⟨cx, cy, cz, hx, hy, hz, e1⟩ := (Vector3.Cross_ok_iff a a r).1 h
    have zx := Vector3.crossTerm_self _ _ _ hx
    have zy := Vector3.crossTerm_self _ _ _ hy
    have zz := Vector3.crossTerm_self _ _ _ hz
    subst e1
    subst zx
    subst zy
    subst zz
    have h0 : Real.opEq Real.zero Real.zero = true := by decide
    exact ⟨h0, h0, h0, rfl, rfl, rfl, Vector3.combineAdditiveUnits_self a._unit⟩

/-- C20 at `a = (1,0,0)`, `b = (0,1,0)`: `a.Cross(b)` is `(0,0,1)`, `b.Cross(a)` is
`(0,0,-1)`, whose negation `(-0.0,-0.0,1)` equals `a.Cross(b)` under `operator==`; and
`a.Cross(a)` is the zero vector with the unit tag of `a`. -/
theorem C20_cross_antisymmetry_witness :
    Vector3.Cross Example.e1 Example.e2 = Except.ok Example.e3 ∧
    Vector3.Cross Example.e2 Example.e1
      = Except.ok (Vector3.ctor Real.zero Real.zero Example.minusOne) ∧
    (∃ n, Vector3.opNeg (Vector3.ctor Real.zero Real.zero Example.minusOne) = Except.ok n ∧
      Vector3.opEq Example.e3 n = true ∧ Vector3.opNe Example.e3 n = false) ∧
    Vector3.Cross Example.e1 Example.e1 = Except.ok Example.vZero ∧
    Example.vZero.unit = Example.e1.unit :=
  ⟨by decide, by decide,
    (C20_cross_antisymmetry Example.e1 Example.e2).2.1 _ _ (by decide) (by decide),
    by decide, by decide⟩

end kalon
